import Mathlib

/-!
# OMAP hardware spinlock: internal helpers and validation harness

A shallow embedding of

* `drivers/hwspinlock/hwspinlock_internal.h`
  (`hwlock_to_id`, `of_hwspin_lock_get_base_id`, `of_hwspin_lock_get_num_locks`),
* `drivers/hwspinlock/omap_hwspinlock_test.c`
  (`hwspin_lock_test`, `hwspin_lock_test_all_locks`,
  `hwspin_lock_test_all_phandle_locks`, `omap_hwspinlock_test_probe`).

Conventions.

* C `int` is a 32-bit two's complement integer and `unsigned int` / `u32` a
  32-bit unsigned integer.  Values are carried in `Int` / `Nat`; every
  conversion and every arithmetic operation that can leave the range is
  wrapped explicitly (`int_to_u32`, `u32_to_int`, `wrap_int`).  The kernel is
  built with `-fno-strict-overflow`, so `int` addition wraps.
* Functions of the kernel that the two files call but do not define
  (`of_property_read_u32`, `hwspin_trylock`, `hwspin_unlock`,
  `hwspin_lock_request_specific`, `hwspin_lock_free`, `of_hwspin_lock_get_id`,
  `of_count_phandle_with_args`) are parameters of the embedding.
* `pr_err` logging (and the pure accessor `hwspin_lock_get_id` that only
  appears as an argument of `pr_err`) has no effect on control flow or on
  the lock state and is left out.  Instead every function of the harness
  returns the list of registry calls it made, in order.
-/

namespace Hwspinlock

/-! ## Machine integers -/

/-- Conversion of a C `int` to `unsigned int`: reduction modulo `2^32`. -/
def int_to_u32 (x : Int) : Nat := (x % 4294967296).toNat

/-- Conversion of an `unsigned int` to `int`: values from `2^31` on wrap to
negative numbers. -/
def u32_to_int (v : Nat) : Int :=
  if v % 4294967296 < 2147483648 then ((v % 4294967296 : Nat) : Int)
  else ((v % 4294967296 : Nat) : Int) - 4294967296

/-- Result of an `int` operation, wrapped into `[-2^31, 2^31)`. -/
def wrap_int (x : Int) : Int := u32_to_int (int_to_u32 x)

/-- Largest value of a C `int`. -/
def INT_MAX : Int := 2147483647

/-- Smallest value of a C `int`. -/
def INT_MIN : Int := -2147483648

/-- Largest value of a `u32`. -/
def U32_MAX : Nat := 4294967295

/-! ## Error numbers (`include/uapi/asm-generic/errno-base.h`) -/

/-- I/O error. -/
def EIO : Int := 5
/-- Bad address. -/
def EFAULT : Int := 14
/-- Device or resource busy. -/
def EBUSY : Int := 16
/-- No such device. -/
def ENODEV : Int := 19
/-- Invalid argument. -/
def EINVAL : Int := 22

/-! ## `hwspinlock_internal.h` -/

/-- The fields of `struct hwspinlock_device` that `hwlock_to_id` reads, together
with the address of the trailing array `lock[0]`. -/
structure hwspinlock_device where
  base_id : Int
  num_locks : Int
  lock : Int
  deriving DecidableEq, Repr

/-- A pointer to a `struct hwspinlock`: the address it holds and the bank the
pointed-to lock refers to through its `bank` field. -/
structure hwspinlock where
  bank : hwspinlock_device
  addr : Int
  deriving DecidableEq, Repr

/-- Address of `bank->lock[i]`, for a `struct hwspinlock` of `sizeof_hwspinlock`
bytes: the lock at position `i` of the bank. -/
def lock_at (sizeof_hwspinlock : Int) (bank : hwspinlock_device) (i : Int) : hwspinlock :=
  { bank := bank, addr := bank.lock + i * sizeof_hwspinlock }

/-- C pointer subtraction `p - q` for pointers to objects of `size` bytes. -/
def ptr_diff (size : Int) (p q : Int) : Int := (p - q) / size

/-- Embedding of
`int local_id = hwlock - &hwlock->bank->lock[0]; return hwlock->bank->base_id + local_id;`. -/
def hwlock_to_id (sizeof_hwspinlock : Int) (hwlock : hwspinlock) : Int :=
  let local_id := wrap_int (ptr_diff sizeof_hwspinlock hwlock.addr hwlock.bank.lock)
  wrap_int (hwlock.bank.base_id + local_id)

/-- Outcome of `of_property_read_u32(dn, name, &val)`: its return value and the
value it stored through the out pointer (meaningful when `ret = 0`). -/
structure of_read where
  ret : Int
  val : Nat
  deriving DecidableEq, Repr

/-- Embedding of `of_hwspin_lock_get_base_id`:
`ret = of_property_read_u32(dn, "hwlock-base-id", &val); return ret ? ret : val;`.
The conditional expression has type `unsigned int`; the `return` converts it
to `int`. -/
def of_hwspin_lock_get_base_id {DN : Type} (of_property_read_u32 : DN → String → of_read)
    (dn : DN) : Int :=
  let r := of_property_read_u32 dn "hwlock-base-id"
  u32_to_int (if r.ret ≠ 0 then int_to_u32 r.ret else r.val)

/-- Embedding of `of_hwspin_lock_get_num_locks`:
`ret = of_property_read_u32(dn, "hwlock-num-locks", &val);`
`if (!ret) ret = val ? val : -ENODEV; return ret;`.
The conditional expression has type `unsigned int`; the assignment converts
it to `int`. -/
def of_hwspin_lock_get_num_locks {DN : Type} (of_property_read_u32 : DN → String → of_read)
    (dn : DN) : Int :=
  let r := of_property_read_u32 dn "hwlock-num-locks"
  if r.ret = 0 then u32_to_int (if r.val ≠ 0 then r.val else int_to_u32 (-ENODEV))
  else r.ret

/-- A device node whose only readable property is `name`, holding `v`; every
other read fails with `err`. -/
def node_with (name : String) (v : Nat) (err : Int) : Unit → String → of_read :=
  fun _ p => if p = name then { ret := 0, val := v } else { ret := err, val := 0 }

/-- A device node on which every property read fails with `err`. -/
def node_failing (err : Int) : Unit → String → of_read :=
  fun _ _ => { ret := err, val := 0 }

/-! ## `omap_hwspinlock_test.c`: the registry boundary -/

/-- A call made by the harness to the hwspinlock core, with the answer it got.
`H` is the type of lock handles (`struct hwspinlock *`, non-null). -/
inductive Event (H : Type) where
  | trylock (hwlock : H) (ret : Int)
  | unlock (hwlock : H)
  | request (id : Nat) (res : Option H)
  | free (hwlock : H) (ret : Int)
  | get_id (index : Int) (ret : Int)
  deriving DecidableEq, Repr

/-- The two lock operations of `include/linux/hwspinlock.h` used by
`hwspin_lock_test`, over an arbitrary state `σ` of the hwspinlock core and the
hardware.  `hwspin_trylock` returns `0` on success and a nonzero (negative)
error code when the lock is busy. -/
structure Backend (σ H : Type) where
  hwspin_trylock : H → σ → Int × σ
  hwspin_unlock : H → σ → σ

/-- The remaining functions the two test modes call.
`hwspin_lock_request_specific` takes an `unsigned int` id and returns a handle
or `NULL` (`none`); `hwspin_lock_free` returns `0` or an error code;
`of_hwspin_lock_get_id` returns a global id or a negative error code;
`of_count_phandle_with_args` returns the number of references or a negative
error code.  `N` is the type of device nodes; a node pointer may be `NULL`. -/
structure Registry (σ H N : Type) extends Backend σ H where
  hwspin_lock_request_specific : Nat → σ → Option H × σ
  hwspin_lock_free : H → σ → Int × σ
  of_hwspin_lock_get_id : Option N → Int → σ → Int × σ
  of_count_phandle_with_args : Option N → String → String → Int

/-- What a harness function hands back: its return value, the state it leaves
and the calls it made, oldest first. -/
structure Outcome (σ H : Type) where
  ret : Int
  state : σ
  calls : List (Event H)

/-- An entry of a `struct of_device_id` table: the `compatible` string and the
`data` pointer, as the integer it was cast from. -/
structure of_device_id where
  compatible : String
  data : Nat
  deriving DecidableEq, Repr

/-- The table `omap_hwspinlock_test_of_match[]` (the end marker is the end of
the list). -/
def omap_hwspinlock_test_of_match : List of_device_id :=
  [ { compatible := "ti,omap4-hwspinlock-test", data := 32 },
    { compatible := "ti,omap5-hwspinlock-test", data := 32 },
    { compatible := "ti,dra7-hwspinlock-test", data := 256 },
    { compatible := "ti,am33xx-hwspinlock-test", data := 128 },
    { compatible := "ti,am43xx-hwspinlock-test", data := 128 } ]

/-- The part of `struct platform_device` the harness reads: `dev.of_node`
(possibly `NULL`) and the `compatible` string of the device. -/
structure platform_device (N : Type) where
  of_node : Option N
  compatible : String

/-- Modelled from the spec: `of_match_device` (`drivers/of/device.c`, not part of
the two files) is the lookup in the "static table mapping variant name → max
lock count": the first entry of the table whose `compatible` string is the
one of the device, `NULL` (`none`) when there is none. -/
def of_match_device {N : Type} (table : List of_device_id) (pdev : platform_device N) :
    Option of_device_id :=
  table.find? (fun e => e.compatible == pdev.compatible)

/-! ## `omap_hwspinlock_test.c`: the harness -/

section Harness

variable {σ H N : Type}

/-- The body of the `for (i = 0; i < count; i++)` loop of `hwspin_lock_test`,
by recursion on the number of iterations still to run.  The loop counter is
only printed, so it is not carried. -/
def hwspin_lock_test_loop (api : Backend σ H) (hwlock : H) : Nat → σ → Outcome σ H
  | 0, s => { ret := 0, state := s, calls := [] }
  | n + 1, s =>
    let r1 := api.hwspin_trylock hwlock s
    if r1.1 ≠ 0 then
      { ret := -EFAULT, state := r1.2, calls := [Event.trylock hwlock r1.1] }
    else
      let r2 := api.hwspin_trylock hwlock r1.2
      if r2.1 = 0 then
        { ret := -EFAULT
          state := api.hwspin_unlock hwlock (api.hwspin_unlock hwlock r2.2)
          calls := [Event.trylock hwlock r1.1, Event.trylock hwlock r2.1,
                    Event.unlock hwlock, Event.unlock hwlock] }
      else
        let r3 := api.hwspin_trylock hwlock (api.hwspin_unlock hwlock r2.2)
        if r3.1 ≠ 0 then
          { ret := -EINVAL, state := r3.2
            calls := [Event.trylock hwlock r1.1, Event.trylock hwlock r2.1,
                      Event.unlock hwlock, Event.trylock hwlock r3.1] }
        else
          let rest := hwspin_lock_test_loop api hwlock n (api.hwspin_unlock hwlock r3.2)
          { ret := rest.ret, state := rest.state
            calls := [Event.trylock hwlock r1.1, Event.trylock hwlock r2.1,
                      Event.unlock hwlock, Event.trylock hwlock r3.1,
                      Event.unlock hwlock] ++ rest.calls }

/-- Embedding of `hwspin_lock_test`; `count` is the module parameter.  The loop
`for (i = 0; i < count; i++)` runs `count` iterations when `count` is
positive and none otherwise; `i < count <= INT_MAX` so `i++` never wraps. -/
def hwspin_lock_test (api : Backend σ H) (count : Int) (hwlock : H) (s : σ) : Outcome σ H :=
  hwspin_lock_test_loop api hwlock count.toNat s

/-- The loop of `hwspin_lock_test_all_locks`, by recursion on the number of
iterations still to run; `i` is the loop counter and `ret` the local `ret`.
`i < max_locks <= INT_MAX`, so `i++` never wraps. -/
def hwspin_lock_test_all_locks_loop (api : Registry σ H N) (count : Int) :
    Nat → Int → Int → σ → Outcome σ H
  | 0, _, ret, s => { ret := ret, state := s, calls := [] }
  | n + 1, i, ret, s =>
    let q := api.hwspin_lock_request_specific (int_to_u32 i) s
    match q.1 with
    | none =>
      let rest := hwspin_lock_test_all_locks_loop api count n (i + 1) (- EIO) q.2
      { ret := rest.ret, state := rest.state
        calls := Event.request (int_to_u32 i) none :: rest.calls }
    | some hwlock =>
      let t := hwspin_lock_test api.toBackend count hwlock q.2
      let ret1 := if t.ret ≠ 0 then t.ret else ret
      let f := api.hwspin_lock_free hwlock t.state
      let ret2 := if f.1 ≠ 0 then f.1 else ret1
      let rest := hwspin_lock_test_all_locks_loop api count n (i + 1) ret2 f.2
      { ret := rest.ret, state := rest.state
        calls := Event.request (int_to_u32 i) (some hwlock)
                  :: (t.calls ++ Event.free hwlock f.1 :: rest.calls) }

/-- Embedding of `hwspin_lock_test_all_locks`.  `none` is the `NULL` dereference
of `of_match_device(...)->data` when the device matches no table entry. -/
def hwspin_lock_test_all_locks (api : Registry σ H N) (count : Int)
    (pdev : platform_device N) (s : σ) : Option (Outcome σ H) :=
  match of_match_device omap_hwspinlock_test_of_match pdev with
  | none => none
  | some e =>
    let max_locks := u32_to_int (e.data % 4294967296)
    some (hwspin_lock_test_all_locks_loop api count max_locks.toNat 0 0 s)

/-- The loop of `hwspin_lock_test_all_phandle_locks`, by recursion on the number
of iterations still to run; `i` is the loop counter and `ret` the local
`ret`.  `i < num_locks <= INT_MAX`, so `i++` never wraps. -/
def hwspin_lock_test_all_phandle_locks_loop (api : Registry σ H N) (count : Int)
    (np : Option N) : Nat → Int → Int → σ → Outcome σ H
  | 0, _, ret, s => { ret := ret, state := s, calls := [] }
  | n + 1, i, ret, s =>
    let g := api.of_hwspin_lock_get_id np i s
    if g.1 < 0 then
      let rest := hwspin_lock_test_all_phandle_locks_loop api count np n (i + 1) (-EINVAL) g.2
      { ret := rest.ret, state := rest.state
        calls := Event.get_id i g.1 :: rest.calls }
    else
      let q := api.hwspin_lock_request_specific (int_to_u32 g.1) g.2
      match q.1 with
      | none =>
        let rest :=
          hwspin_lock_test_all_phandle_locks_loop api count np n (i + 1) (-EINVAL) q.2
        { ret := rest.ret, state := rest.state
          calls := Event.get_id i g.1 :: Event.request (int_to_u32 g.1) none :: rest.calls }
      | some hwlock =>
        let t := hwspin_lock_test api.toBackend count hwlock q.2
        let ret1 := if t.ret ≠ 0 then t.ret else ret
        let f := api.hwspin_lock_free hwlock t.state
        let ret2 := if f.1 ≠ 0 then f.1 else ret1
        let rest := hwspin_lock_test_all_phandle_locks_loop api count np n (i + 1) ret2 f.2
        { ret := rest.ret, state := rest.state
          calls := Event.get_id i g.1 :: Event.request (int_to_u32 g.1) (some hwlock)
                    :: (t.calls ++ Event.free hwlock f.1 :: rest.calls) }

/-- Embedding of `hwspin_lock_test_all_phandle_locks`.  `max_locks` is computed
and never used, but its computation dereferences the result of
`of_match_device` (`none` when that is `NULL`). -/
def hwspin_lock_test_all_phandle_locks (api : Registry σ H N) (count : Int)
    (pdev : platform_device N) (s : σ) : Option (Outcome σ H) :=
  match of_match_device omap_hwspinlock_test_of_match pdev with
  | none => none
  | some _ =>
    let num_locks := api.of_count_phandle_with_args pdev.of_node "hwlocks" "#hwlock-cells"
    some (hwspin_lock_test_all_phandle_locks_loop api count pdev.of_node num_locks.toNat 0 0 s)

/-- Embedding of `omap_hwspinlock_test_probe`: `-EINVAL` without running anything
when `pdev->dev.of_node` is `NULL`; otherwise the reference-list mode, then
the sweep, each result only logged, and `return 0`. -/
def omap_hwspinlock_test_probe (api : Registry σ H N) (count : Int)
    (pdev : platform_device N) (s : σ) : Option (Outcome σ H) :=
  match pdev.of_node with
  | none => some { ret := -EINVAL, state := s, calls := [] }
  | some _ =>
    match hwspin_lock_test_all_phandle_locks api count pdev s with
    | none => none
    | some a =>
      match hwspin_lock_test_all_locks api count pdev a.state with
      | none => none
      | some b => some { ret := 0, state := b.state, calls := a.calls ++ b.calls }

end Harness

/-! ## Reading a trace -/

section Trace

variable {H : Type}

/-- The ids passed to `hwspin_lock_request_specific`, in call order. -/
def requested_ids : List (Event H) → List Nat
  | [] => []
  | Event.request id _ :: t => id :: requested_ids t
  | _ :: t => requested_ids t

/-- Number of `hwspin_lock_request_specific` calls that returned a handle. -/
def successful_requests : List (Event H) → Nat
  | [] => 0
  | Event.request _ (some _) :: t => successful_requests t + 1
  | _ :: t => successful_requests t

/-- Number of `hwspin_lock_free` calls. -/
def free_calls : List (Event H) → Nat
  | [] => 0
  | Event.free _ _ :: t => free_calls t + 1
  | _ :: t => free_calls t

/-- Number of `hwspin_unlock` calls. -/
def unlock_calls : List (Event H) → Nat
  | [] => 0
  | Event.unlock _ :: t => unlock_calls t + 1
  | _ :: t => unlock_calls t

/-- Number of `hwspin_trylock` calls. -/
def trylock_calls : List (Event H) → Nat
  | [] => 0
  | Event.trylock _ _ :: t => trylock_calls t + 1
  | _ :: t => trylock_calls t

/-- Request/free discipline of a trace, read left to right with the handle that
is currently checked out (`none`: no handle is out).  A failed request leaves
no handle out; a successful request checks its handle out; while a handle is
out only `trylock` / `unlock` on that handle may occur, until the `free` of
that same handle, which ends the block; at the end no handle is out.  In
particular every handle handed out is freed exactly once, after the lock
calls made on it, and nothing is freed that was not handed out. -/
def frees_match [DecidableEq H] : Option H → List (Event H) → Bool
  | none, [] => true
  | some _, [] => false
  | none, Event.request _ res :: t => frees_match res t
  | none, Event.get_id _ _ :: t => frees_match none t
  | none, Event.trylock _ _ :: _ => false
  | none, Event.unlock _ :: _ => false
  | none, Event.free _ _ :: _ => false
  | some h, Event.trylock h1 _ :: t => decide (h1 = h) && frees_match (some h) t
  | some h, Event.unlock h1 :: t => decide (h1 = h) && frees_match (some h) t
  | some h, Event.free h1 _ :: t => decide (h1 = h) && frees_match none t
  | some _, Event.request _ _ :: _ => false
  | some _, Event.get_id _ _ :: _ => false

/-- The indices passed to `of_hwspin_lock_get_id`, in call order. -/
def resolved_indices : List (Event H) → List Int
  | [] => []
  | Event.get_id i _ :: t => i :: resolved_indices t
  | _ :: t => resolved_indices t

/-- The values returned by `of_hwspin_lock_get_id`, in call order. -/
def resolution_results : List (Event H) → List Int
  | [] => []
  | Event.get_id _ r :: t => r :: resolution_results t
  | _ :: t => resolution_results t

/-- Resolution/request discipline of a trace of the reference-list mode, read
left to right with the id that has been resolved and not yet requested
(`none`: nothing is pending).  A resolution that yields a negative value
leaves nothing pending; a resolution that yields `g >= 0` makes `g` pending;
a request may only occur while an id is pending, must be the very next call
and must carry exactly that id; at the end nothing is pending. -/
def resolutions_requested : Option Int → List (Event H) → Bool
  | none, [] => true
  | some _, [] => false
  | none, Event.get_id _ r :: t =>
    if r < 0 then resolutions_requested none t else resolutions_requested (some r) t
  | none, Event.request _ _ :: _ => false
  | none, Event.trylock _ _ :: t => resolutions_requested none t
  | none, Event.unlock _ :: t => resolutions_requested none t
  | none, Event.free _ _ :: t => resolutions_requested none t
  | some g, Event.request id _ :: t => decide ((id : Int) = g) && resolutions_requested none t
  | some _, Event.get_id _ _ :: _ => false
  | some _, Event.trylock _ _ :: _ => false
  | some _, Event.unlock _ :: _ => false
  | some _, Event.free _ _ :: _ => false

/-- The answers of the `hwspin_trylock` calls, in call order. -/
def trylock_answers : List (Event H) → List Int
  | [] => []
  | Event.trylock _ r :: t => r :: trylock_answers t
  | _ :: t => trylock_answers t

/-- Number of `hwspin_trylock` calls that reported success (returned 0). -/
def successful_trylocks : List (Event H) → Nat
  | [] => 0
  | Event.trylock _ r :: t => if r = 0 then successful_trylocks t + 1 else successful_trylocks t
  | _ :: t => successful_trylocks t

/-- The trylock answers of `n` iterations in which the three trylock calls
answered (success, failure, success), in that order, and nothing else. -/
def answers_pass : Nat → List Int → Bool
  | 0, [] => true
  | 0, _ :: _ => false
  | n + 1, a :: b :: c :: t => decide (a = 0) && decide (b ≠ 0) && decide (c = 0) && answers_pass n t
  | _ + 1, _ => false

/-- The call list made of `n` repetitions of the call list `steps`. -/
def repetitions (steps : List (Event H)) : Nat → List (Event H)
  | 0 => []
  | n + 1 => steps ++ repetitions steps n

/-- The 5-step sequence trylock, trylock, unlock, trylock, unlock as the ideal
lock answers it: success, busy, success. -/
def five_steps : List (Event Unit) :=
  [Event.trylock () 0, Event.trylock () (-EBUSY), Event.unlock (), Event.trylock () 0,
   Event.unlock ()]

end Trace

/-! ## Per-lock failures along a run -/

section Failures

variable {σ H N : Type}

/-- No per-lock failure occurs in `n` iterations of the sweep from counter `i`
and state `s`: in each of them, in the state the run has reached, the request
returns a handle, the protocol run returns 0 and the free returns 0. -/
def sweep_no_failure (api : Registry σ H N) (count : Int) : Nat → Int → σ → Bool
  | 0, _, _ => true
  | n + 1, i, s =>
    match (api.hwspin_lock_request_specific (int_to_u32 i) s).1 with
    | none => false
    | some hwlock =>
      decide ((hwspin_lock_test api.toBackend count hwlock
                (api.hwspin_lock_request_specific (int_to_u32 i) s).2).ret = 0) &&
      decide ((api.hwspin_lock_free hwlock
                (hwspin_lock_test api.toBackend count hwlock
                  (api.hwspin_lock_request_specific (int_to_u32 i) s).2).state).1 = 0) &&
      sweep_no_failure api count n (i + 1)
        (api.hwspin_lock_free hwlock
          (hwspin_lock_test api.toBackend count hwlock
            (api.hwspin_lock_request_specific (int_to_u32 i) s).2).state).2

/-- No per-lock failure occurs in `n` iterations of the reference-list mode from
index `i` and state `s`: in each of them, in the state the run has reached,
the id resolution yields a non-negative id, the request returns a handle, the
protocol run returns 0 and the free returns 0. -/
def phandle_no_failure (api : Registry σ H N) (count : Int) (np : Option N) :
    Nat → Int → σ → Bool
  | 0, _, _ => true
  | n + 1, i, s =>
    if (api.of_hwspin_lock_get_id np i s).1 < 0 then false
    else
      match (api.hwspin_lock_request_specific (int_to_u32 (api.of_hwspin_lock_get_id np i s).1)
              (api.of_hwspin_lock_get_id np i s).2).1 with
      | none => false
      | some hwlock =>
        decide ((hwspin_lock_test api.toBackend count hwlock
                  (api.hwspin_lock_request_specific
                    (int_to_u32 (api.of_hwspin_lock_get_id np i s).1)
                    (api.of_hwspin_lock_get_id np i s).2).2).ret = 0) &&
        decide ((api.hwspin_lock_free hwlock
                  (hwspin_lock_test api.toBackend count hwlock
                    (api.hwspin_lock_request_specific
                      (int_to_u32 (api.of_hwspin_lock_get_id np i s).1)
                      (api.of_hwspin_lock_get_id np i s).2).2).state).1 = 0) &&
        phandle_no_failure api count np n (i + 1)
          (api.hwspin_lock_free hwlock
            (hwspin_lock_test api.toBackend count hwlock
              (api.hwspin_lock_request_specific
                (int_to_u32 (api.of_hwspin_lock_get_id np i s).1)
                (api.of_hwspin_lock_get_id np i s).2).2).state).2

end Failures

/-! ## Global-id ranges -/

/-- The global-id range `[base_id, base_id + num_locks)` of a bank contains `g`. -/
def in_range (b : hwspinlock_device) (g : Int) : Prop :=
  b.base_id ≤ g ∧ g < b.base_id + b.num_locks

/-- The global-id ranges of two banks do not intersect. -/
def ranges_disjoint (a b : hwspinlock_device) : Prop :=
  ∀ g : Int, ¬ (in_range a g ∧ in_range b g)

/-- The fields of a bank are C `int`s and its whole id range fits in `int`:
the last id `base_id + num_locks - 1` does not exceed `INT_MAX`. -/
def range_fits_int (b : hwspinlock_device) : Prop :=
  INT_MIN ≤ b.base_id ∧ 0 ≤ b.num_locks ∧ b.num_locks ≤ INT_MAX ∧
  b.base_id + b.num_locks - 1 ≤ INT_MAX

instance (b : hwspinlock_device) (g : Int) : Decidable (in_range b g) := by
  unfold in_range
  infer_instance

instance (b : hwspinlock_device) : Decidable (range_fits_int b) := by
  unfold range_fits_int
  infer_instance

/-! ## Concrete registries -/

/-- A backend whose `trylock` always reports success, held or not; `unlock`
does nothing. -/
def always_granting : Backend Unit Unit where
  hwspin_trylock := fun _ s => (0, s)
  hwspin_unlock := fun _ s => s

/-- A registry in which everything fails where it can and the lock is broken:
ids resolve to `-EINVAL`, requests of an odd id return `NULL`, `trylock`
always reports success and `free` returns `-EINVAL`. -/
def failing_registry (refs : Nat) : Registry Unit Nat Unit where
  hwspin_trylock := fun _ s => (0, s)
  hwspin_unlock := fun _ s => s
  hwspin_lock_request_specific := fun id s => (if id % 2 = 1 then none else some id, s)
  hwspin_lock_free := fun _ s => (-EINVAL, s)
  of_hwspin_lock_get_id := fun _ _ s => (-EINVAL, s)
  of_count_phandle_with_args := fun _ _ _ => refs


/-- State of one lock as the protocol observes it. -/
inductive LockState where
  | FREE
  | LOCKED
  deriving DecidableEq, Repr

/-- The ideal lock: `trylock` succeeds (returns `0`) iff the lock is `FREE`, and
then makes it `LOCKED`; on a `LOCKED` lock it fails with `-EBUSY` and changes
nothing; `unlock` makes the lock `FREE`. -/
def ideal_lock : Backend LockState Unit where
  hwspin_trylock := fun _ s =>
    match s with
    | LockState.FREE => (0, LockState.LOCKED)
    | LockState.LOCKED => (-EBUSY, LockState.LOCKED)
  hwspin_unlock := fun _ _ => LockState.FREE

/-- A backend that replays a script of `trylock` answers (and answers `-EBUSY`
once the script is used up); `unlock` does nothing. -/
def scripted : Backend (List Int) Unit where
  hwspin_trylock := fun _ s =>
    match s with
    | [] => (-EBUSY, [])
    | r :: t => (r, t)
  hwspin_unlock := fun _ s => s

/-- A registry over the scripted backend: the ids in `known` can be requested
(the handle of an id is the id itself), `free` answers `free_ret`, and the
node has the references `refs` (reference `i` resolves to `refs[i]`, or to
`-EINVAL` past the end). -/
def scripted_registry (known : List Nat) (free_ret : Int) (refs : List Int) :
    Registry (List Int) Nat Unit where
  hwspin_trylock := fun _ s =>
    match s with
    | [] => (-EBUSY, [])
    | r :: t => (r, t)
  hwspin_unlock := fun _ s => s
  hwspin_lock_request_specific := fun id s => (if id ∈ known then some id else none, s)
  hwspin_lock_free := fun _ s => (free_ret, s)
  of_hwspin_lock_get_id := fun _ i s => ((refs.get? i.toNat).getD (-EINVAL), s)
  of_count_phandle_with_args := fun _ _ _ => refs.length

/-! ## Basic facts on the integer conversions -/

theorem wrap_int_of_range (x : Int) (h1 : -2147483648 ≤ x) (h2 : x ≤ 2147483647) :
    wrap_int x = x := by
  unfold wrap_int u32_to_int int_to_u32
  have hnn : 0 ≤ x % 4294967296 := Int.emod_nonneg _ (by norm_num)
  have hlt : x % 4294967296 < 4294967296 := Int.emod_lt_of_pos _ (by norm_num)
  have hcast : (((x % 4294967296).toNat % 4294967296 : Nat) : Int) = x % 4294967296 := by
    rw [Nat.mod_eq_of_lt (by omega)]
    exact Int.toNat_of_nonneg hnn
  by_cases hx : 0 ≤ x
  · have hm : x % 4294967296 = x := Int.emod_eq_of_lt hx (by omega)
    have : (x % 4294967296).toNat % 4294967296 < 2147483648 := by omega
    rw [if_pos this, hcast, hm]
  · have hm : x % 4294967296 = x + 4294967296 := by omega
    have : ¬ (x % 4294967296).toNat % 4294967296 < 2147483648 := by omega
    rw [if_neg this, hcast, hm]
    omega

theorem u32_to_int_small (v : Nat) (h : v < 2147483648) : u32_to_int v = v := by
  unfold u32_to_int
  have hm : v % 4294967296 = v := Nat.mod_eq_of_lt (by omega)
  rw [hm, if_pos h]

theorem u32_to_int_large (v : Nat) (h1 : 2147483648 ≤ v) (h2 : v < 4294967296) :
    u32_to_int v = (v : Int) - 4294967296 := by
  unfold u32_to_int
  have hm : v % 4294967296 = v := Nat.mod_eq_of_lt h2
  rw [hm, if_neg (by omega)]

/-! ## `hwlock_to_id` -/

theorem ptr_diff_lock_at (sz : Int) (b : hwspinlock_device) (i : Int) (hsz : 0 < sz) :
    ptr_diff sz (lock_at sz b i).addr (lock_at sz b i).bank.lock = i := by
  unfold ptr_diff lock_at
  simp only
  rw [add_sub_cancel_left]
  exact Int.mul_ediv_cancel i (ne_of_gt hsz)

/-- Claim C1, counterexample: in the two-lock bank with `base_id = INT_MAX`, the
lock at local index 1 (a valid index) gets the id `INT_MIN`, not
`base_id + 1 = 2^31`, which no `int` can hold. -/
theorem hwlock_to_id_wraps_at_int_max :
    (0 : Int) ≤ 1 ∧ (1 : Int) < (hwspinlock_device.mk 2147483647 2 4096).num_locks ∧
    hwlock_to_id 24 (lock_at 24 (hwspinlock_device.mk 2147483647 2 4096) 1) = -2147483648 ∧
    hwlock_to_id 24 (lock_at 24 (hwspinlock_device.mk 2147483647 2 4096) 1)
      ≠ (hwspinlock_device.mk 2147483647 2 4096).base_id + 1 := by
  decide

/-- Claim C1, amended: for every bank (with `int` fields), every size of
`struct hwspinlock` and every local index `i` with `0 <= i < num_locks` such
that `base_id + i` does not exceed `INT_MAX`, `hwlock_to_id` applied to the
lock at position `i` of the bank returns exactly `base_id + i`. -/
theorem hwlock_to_id_eq_base_add_index (sz : Int) (b : hwspinlock_device) (i : Int)
    (hsz : 0 < sz) (hbase : INT_MIN ≤ b.base_id) (hnum : b.num_locks ≤ INT_MAX)
    (hi0 : 0 ≤ i) (hi : i < b.num_locks) (hfit : b.base_id + i ≤ INT_MAX) :
    hwlock_to_id sz (lock_at sz b i) = b.base_id + i := by
  unfold INT_MIN at hbase
  unfold INT_MAX at hnum hfit
  unfold hwlock_to_id
  simp only
  rw [ptr_diff_lock_at sz b i hsz, wrap_int_of_range i (by omega) (by omega)]
  have hb : (lock_at sz b i).bank = b := rfl
  rw [hb]
  exact wrap_int_of_range _ (by omega) (by omega)

theorem hwlock_to_id_eq_base_add_index_witness :
    hwlock_to_id 24 (lock_at 24 (hwspinlock_device.mk 32 32 4096) 7) = 32 + 7 :=
  hwlock_to_id_eq_base_add_index 24 (hwspinlock_device.mk 32 32 4096) 7
    (by decide) (by decide) (by decide) (by decide) (by decide) (by decide)

/-! ## `of_hwspin_lock_get_num_locks` and `of_hwspin_lock_get_base_id` -/

/-- Claim C2, counterexample: when the read of "hwlock-num-locks" fails with
`-EINVAL` (what the OF layer reports for an absent property) the helper
returns `-EINVAL`, which is not `-ENODEV`, while a stored value of 0 gives
`-ENODEV`: the two cases do not give the same error. -/
theorem get_num_locks_absent_is_not_enodev :
    of_hwspin_lock_get_num_locks (node_failing (-EINVAL)) () = -EINVAL ∧
    of_hwspin_lock_get_num_locks (node_failing (-EINVAL)) () ≠ -ENODEV ∧
    of_hwspin_lock_get_num_locks (node_with "hwlock-num-locks" 0 (-EINVAL)) () = -ENODEV := by
  decide

/-- Claim C2, amended: `of_hwspin_lock_get_num_locks` returns `-ENODEV` when the
property is present with value exactly 0; when the underlying read fails with
a nonzero code `e` it returns that code `e` itself, whatever `e` is. -/
theorem get_num_locks_error_cases {DN : Type} (of_property_read_u32 : DN → String → of_read)
    (dn : DN) :
    ((of_property_read_u32 dn "hwlock-num-locks").ret = 0 →
      (of_property_read_u32 dn "hwlock-num-locks").val = 0 →
      of_hwspin_lock_get_num_locks of_property_read_u32 dn = -ENODEV) ∧
    ((of_property_read_u32 dn "hwlock-num-locks").ret ≠ 0 →
      of_hwspin_lock_get_num_locks of_property_read_u32 dn
        = (of_property_read_u32 dn "hwlock-num-locks").ret) := by
  constructor
  · intro hret hval
    unfold of_hwspin_lock_get_num_locks
    simp only [hret, hval, if_true, ne_eq, not_true_eq_false, if_false]
    decide
  · intro hret
    unfold of_hwspin_lock_get_num_locks
    simp only [hret, if_false]

theorem get_num_locks_error_cases_witness :
    of_hwspin_lock_get_num_locks (node_with "hwlock-num-locks" 0 (-EINVAL)) () = -ENODEV ∧
    of_hwspin_lock_get_num_locks (node_failing (-EINVAL)) () = -EINVAL :=
  ⟨(get_num_locks_error_cases (node_with "hwlock-num-locks" 0 (-EINVAL)) ()).1
      (by decide) (by decide),
   (get_num_locks_error_cases (node_failing (-EINVAL)) ()).2 (by decide)⟩

/-- Claim C3, counterexample: the nonzero value `2^31` stored in
"hwlock-num-locks" comes back as `-2^31`: not the value, and not positive. -/
theorem get_num_locks_negative_at_two_pow_31 :
    of_hwspin_lock_get_num_locks (node_with "hwlock-num-locks" 2147483648 (-EINVAL)) ()
      = -2147483648 ∧
    ¬ (0 < of_hwspin_lock_get_num_locks (node_with "hwlock-num-locks" 2147483648 (-EINVAL)) ()) ∧
    of_hwspin_lock_get_num_locks (node_with "hwlock-num-locks" 2147483648 (-EINVAL)) ()
      ≠ ((2147483648 : Nat) : Int) := by
  decide

/-- Claim C3, amended: for every nonzero value `v` up to `INT_MAX` stored in
"hwlock-num-locks", `of_hwspin_lock_get_num_locks` returns `v` itself, a
positive `int`. -/
theorem get_num_locks_value {DN : Type} (of_property_read_u32 : DN → String → of_read)
    (dn : DN) (hret : (of_property_read_u32 dn "hwlock-num-locks").ret = 0)
    (hnz : (of_property_read_u32 dn "hwlock-num-locks").val ≠ 0)
    (hfit : (of_property_read_u32 dn "hwlock-num-locks").val ≤ 2147483647) :
    of_hwspin_lock_get_num_locks of_property_read_u32 dn
        = ((of_property_read_u32 dn "hwlock-num-locks").val : Int) ∧
    0 < of_hwspin_lock_get_num_locks of_property_read_u32 dn := by
  have h : of_hwspin_lock_get_num_locks of_property_read_u32 dn
      = ((of_property_read_u32 dn "hwlock-num-locks").val : Int) := by
    unfold of_hwspin_lock_get_num_locks
    simp only [hret, if_true, ne_eq, hnz, not_false_eq_true]
    exact u32_to_int_small _ (by omega)
  refine ⟨h, ?_⟩
  rw [h]
  omega

theorem get_num_locks_value_witness :
    of_hwspin_lock_get_num_locks (node_with "hwlock-num-locks" 32 (-EINVAL)) ()
        = ((node_with "hwlock-num-locks" 32 (-EINVAL) () "hwlock-num-locks").val : Int) ∧
    0 < of_hwspin_lock_get_num_locks (node_with "hwlock-num-locks" 32 (-EINVAL)) () :=
  get_num_locks_value (node_with "hwlock-num-locks" 32 (-EINVAL)) ()
    (by decide) (by decide) (by decide)

/-- Claim C4, counterexample: the value `2^32 - 22` stored in "hwlock-base-id"
comes back as `-22 = -EINVAL`: negative, and equal to what the helper returns
when the read fails with `-EINVAL`. -/
theorem get_base_id_collides_with_error :
    of_hwspin_lock_get_base_id (node_with "hwlock-base-id" 4294967274 (-EINVAL)) () = -EINVAL ∧
    ¬ (0 ≤ of_hwspin_lock_get_base_id (node_with "hwlock-base-id" 4294967274 (-EINVAL)) ()) ∧
    of_hwspin_lock_get_base_id (node_with "hwlock-base-id" 4294967274 (-EINVAL)) ()
      = of_hwspin_lock_get_base_id (node_failing (-EINVAL)) () := by
  decide

/-- Claim C4, amended: for every value `v` up to `INT_MAX` (0 included) stored in
"hwlock-base-id", `of_hwspin_lock_get_base_id` returns `v` itself, a
non-negative `int`, different from the result of every read that fails with a
negative error code. -/
theorem get_base_id_value {DN : Type} (of_property_read_u32 : DN → String → of_read)
    (dn : DN) (hret : (of_property_read_u32 dn "hwlock-base-id").ret = 0)
    (hfit : (of_property_read_u32 dn "hwlock-base-id").val ≤ 2147483647) :
    of_hwspin_lock_get_base_id of_property_read_u32 dn
        = ((of_property_read_u32 dn "hwlock-base-id").val : Int) ∧
    0 ≤ of_hwspin_lock_get_base_id of_property_read_u32 dn ∧
    ∀ {DN2 : Type} (failing_read : DN2 → String → of_read) (dn2 : DN2),
      (failing_read dn2 "hwlock-base-id").ret < 0 →
      INT_MIN ≤ (failing_read dn2 "hwlock-base-id").ret →
      of_hwspin_lock_get_base_id failing_read dn2
        ≠ of_hwspin_lock_get_base_id of_property_read_u32 dn := by
  have h : of_hwspin_lock_get_base_id of_property_read_u32 dn
      = ((of_property_read_u32 dn "hwlock-base-id").val : Int) := by
    unfold of_hwspin_lock_get_base_id
    simp only [hret, ne_eq, not_true_eq_false, if_false]
    exact u32_to_int_small _ (by omega)
  refine ⟨h, by rw [h]; omega, ?_⟩
  intro DN2 failing_read dn2 hneg hmin
  unfold INT_MIN at hmin
  have hf : of_hwspin_lock_get_base_id failing_read dn2
      = (failing_read dn2 "hwlock-base-id").ret := by
    unfold of_hwspin_lock_get_base_id
    have hne : (failing_read dn2 "hwlock-base-id").ret ≠ 0 := by omega
    simp only [ne_eq, hne, not_false_eq_true, if_true]
    exact wrap_int_of_range _ (by omega) (by omega)
  rw [hf, h]
  omega

theorem get_base_id_value_witness :
    of_hwspin_lock_get_base_id (node_with "hwlock-base-id" 0 (-EINVAL)) ()
        = ((node_with "hwlock-base-id" 0 (-EINVAL) () "hwlock-base-id").val : Int) ∧
    0 ≤ of_hwspin_lock_get_base_id (node_with "hwlock-base-id" 0 (-EINVAL)) () ∧
    of_hwspin_lock_get_base_id (node_failing (-EINVAL)) ()
      ≠ of_hwspin_lock_get_base_id (node_with "hwlock-base-id" 0 (-EINVAL)) () :=
  ⟨(get_base_id_value (node_with "hwlock-base-id" 0 (-EINVAL)) () (by decide) (by decide)).1,
   (get_base_id_value (node_with "hwlock-base-id" 0 (-EINVAL)) () (by decide) (by decide)).2.1,
   (get_base_id_value (node_with "hwlock-base-id" 0 (-EINVAL)) () (by decide) (by decide)).2.2
      (node_failing (-EINVAL)) () (by decide) (by decide)⟩

/-- Claim C5: when the read of "hwlock-base-id" fails with a nonzero `int` error
code `e`, `of_hwspin_lock_get_base_id` returns exactly `e`. -/
theorem get_base_id_error_verbatim {DN : Type} (of_property_read_u32 : DN → String → of_read)
    (dn : DN) (hne : (of_property_read_u32 dn "hwlock-base-id").ret ≠ 0)
    (hmin : INT_MIN ≤ (of_property_read_u32 dn "hwlock-base-id").ret)
    (hmax : (of_property_read_u32 dn "hwlock-base-id").ret ≤ INT_MAX) :
    of_hwspin_lock_get_base_id of_property_read_u32 dn
      = (of_property_read_u32 dn "hwlock-base-id").ret := by
  unfold INT_MIN at hmin
  unfold INT_MAX at hmax
  unfold of_hwspin_lock_get_base_id
  simp only [ne_eq, hne, not_false_eq_true, if_true]
  exact wrap_int_of_range _ hmin hmax

theorem get_base_id_error_verbatim_witness :
    of_hwspin_lock_get_base_id (node_failing (-EINVAL)) () = -EINVAL :=
  get_base_id_error_verbatim (node_failing (-EINVAL)) () (by decide) (by decide) (by decide)

/-! ## `hwspin_lock_test` -/

section TestLemmas

variable {σ H : Type}

/-- Iterations compose: when the first `j` iterations pass, a run of `j + m`
iterations is those `j` iterations followed by `m` iterations from the state
they leave. -/
theorem hwspin_lock_test_loop_add (api : Backend σ H) (hwlock : H) (m : Nat) :
    ∀ (j : Nat) (s : σ), (hwspin_lock_test_loop api hwlock j s).ret = 0 →
      (hwspin_lock_test_loop api hwlock (j + m) s).ret
          = (hwspin_lock_test_loop api hwlock m (hwspin_lock_test_loop api hwlock j s).state).ret ∧
      (hwspin_lock_test_loop api hwlock (j + m) s).state
          = (hwspin_lock_test_loop api hwlock m (hwspin_lock_test_loop api hwlock j s).state).state ∧
      (hwspin_lock_test_loop api hwlock (j + m) s).calls
          = (hwspin_lock_test_loop api hwlock j s).calls
            ++ (hwspin_lock_test_loop api hwlock m
                  (hwspin_lock_test_loop api hwlock j s).state).calls := by
  intro j
  induction j with
  | zero =>
    intro s _
    simp [hwspin_lock_test_loop]
  | succ j ih =>
    intro s hpass
    rw [Nat.add_right_comm]
    simp only [hwspin_lock_test_loop] at hpass ⊢
    split_ifs at hpass ⊢ with h1 h2 h3
    · simp [EFAULT] at hpass
    · simp [EFAULT] at hpass
    · simp [EINVAL] at hpass
    · obtain ⟨e1, e2, e3⟩ := ih _ hpass
      simp only [e1, e2, e3, List.append_assoc, and_self]

/-- A run whose count exceeds `j` is a run of `j` iterations followed by at
least one more. -/
theorem hwspin_lock_test_split (count : Int) (j : Nat) (hj : (j : Int) < count) :
    ∃ m : Nat, count.toNat = j + (m + 1) := by
  refine ⟨count.toNat - j - 1, ?_⟩
  omega

theorem ideal_lock_loop (n : Nat) :
    (hwspin_lock_test_loop ideal_lock () n LockState.FREE).ret = 0 ∧
    (hwspin_lock_test_loop ideal_lock () n LockState.FREE).state = LockState.FREE := by
  induction n with
  | zero => simp [hwspin_lock_test_loop]
  | succ n ih =>
    simp only [hwspin_lock_test_loop, ideal_lock, EBUSY]
    simpa [ideal_lock, EBUSY] using ih

end TestLemmas

/-- Claim C6: on the ideal lock, starting `FREE`, `hwspin_lock_test` returns 0 and
leaves the lock `FREE` for every iteration count `N` (also a negative one,
which runs no iteration); in particular the final state is the same for
`N = 1` and `N = 3`. -/
theorem hwspin_lock_test_ideal_lock (N : Int) :
    (hwspin_lock_test ideal_lock N () LockState.FREE).ret = 0 ∧
    (hwspin_lock_test ideal_lock N () LockState.FREE).state = LockState.FREE ∧
    (hwspin_lock_test ideal_lock 1 () LockState.FREE).state
      = (hwspin_lock_test ideal_lock 3 () LockState.FREE).state := by
  refine ⟨(ideal_lock_loop N.toNat).1, (ideal_lock_loop N.toNat).2, ?_⟩
  decide

/-- Claim C7: let the first `j` iterations of `hwspin_lock_test` pass (the run
with count `j` returns 0) and let `j < count`, so that iteration `j` is run;
if in that iteration the first trylock succeeds and the second trylock, on
the lock now held, reports success too, then the run with `count` makes the
calls of the `j` passed iterations, those two trylocks, exactly two unlocks,
and nothing more, and returns `-EFAULT`. -/
theorem hwspin_lock_test_recursive_success {σ H : Type} (api : Backend σ H) (hwlock : H)
    (count : Int) (s : σ) (j : Nat) (hj : (j : Int) < count)
    (hpass : (hwspin_lock_test api j hwlock s).ret = 0)
    (h1 : (api.hwspin_trylock hwlock (hwspin_lock_test api j hwlock s).state).1 = 0)
    (h2 : (api.hwspin_trylock hwlock
            (api.hwspin_trylock hwlock (hwspin_lock_test api j hwlock s).state).2).1 = 0) :
    (hwspin_lock_test api count hwlock s).ret = -EFAULT ∧
    (hwspin_lock_test api count hwlock s).calls
      = (hwspin_lock_test api j hwlock s).calls
        ++ [Event.trylock hwlock 0, Event.trylock hwlock 0,
            Event.unlock hwlock, Event.unlock hwlock] ∧
    (hwspin_lock_test api count hwlock s).state
      = api.hwspin_unlock hwlock (api.hwspin_unlock hwlock
          (api.hwspin_trylock hwlock
            (api.hwspin_trylock hwlock (hwspin_lock_test api j hwlock s).state).2).2) := by
  obtain ⟨m, hm⟩ := hwspin_lock_test_split count j hj
  unfold hwspin_lock_test at hpass h1 h2 ⊢
  rw [Int.toNat_ofNat] at hpass h1 h2 ⊢
  obtain ⟨e1, e2, e3⟩ := hwspin_lock_test_loop_add api hwlock (m + 1) j s hpass
  rw [hm, e1, e2, e3]
  simp only [hwspin_lock_test_loop, h1, h2, ne_eq, not_true_eq_false, if_false, if_true,
    and_self]

/-- Claim C8: let the first `j` iterations of `hwspin_lock_test` pass and let
`j < count`.  If the first trylock of iteration `j` fails, the run with
`count` makes the calls of the `j` passed iterations and that one trylock,
nothing more, and returns `-EFAULT`.  If the first trylock succeeds, the
second fails (as it must) and the trylock issued right after the step-3
unlock fails, the run makes the calls of the `j` passed iterations, then
trylock, trylock, unlock, trylock, nothing more, and returns `-EINVAL`. -/
theorem hwspin_lock_test_trylock_failures {σ H : Type} (api : Backend σ H) (hwlock : H)
    (count : Int) (s : σ) (j : Nat) (hj : (j : Int) < count)
    (hpass : (hwspin_lock_test api j hwlock s).ret = 0) :
    ((api.hwspin_trylock hwlock (hwspin_lock_test api j hwlock s).state).1 ≠ 0 →
      (hwspin_lock_test api count hwlock s).ret = -EFAULT ∧
      (hwspin_lock_test api count hwlock s).calls
        = (hwspin_lock_test api j hwlock s).calls
          ++ [Event.trylock hwlock
                (api.hwspin_trylock hwlock (hwspin_lock_test api j hwlock s).state).1] ∧
      (hwspin_lock_test api count hwlock s).state
        = (api.hwspin_trylock hwlock (hwspin_lock_test api j hwlock s).state).2) ∧
    ((api.hwspin_trylock hwlock (hwspin_lock_test api j hwlock s).state).1 = 0 →
      (api.hwspin_trylock hwlock
        (api.hwspin_trylock hwlock (hwspin_lock_test api j hwlock s).state).2).1 ≠ 0 →
      (api.hwspin_trylock hwlock (api.hwspin_unlock hwlock
        (api.hwspin_trylock hwlock
          (api.hwspin_trylock hwlock (hwspin_lock_test api j hwlock s).state).2).2)).1 ≠ 0 →
      (hwspin_lock_test api count hwlock s).ret = -EINVAL ∧
      (hwspin_lock_test api count hwlock s).calls
        = (hwspin_lock_test api j hwlock s).calls
          ++ [Event.trylock hwlock 0,
              Event.trylock hwlock (api.hwspin_trylock hwlock
                (api.hwspin_trylock hwlock (hwspin_lock_test api j hwlock s).state).2).1,
              Event.unlock hwlock,
              Event.trylock hwlock (api.hwspin_trylock hwlock (api.hwspin_unlock hwlock
                (api.hwspin_trylock hwlock
                  (api.hwspin_trylock hwlock
                    (hwspin_lock_test api j hwlock s).state).2).2)).1] ∧
      (hwspin_lock_test api count hwlock s).state
        = (api.hwspin_trylock hwlock (api.hwspin_unlock hwlock
            (api.hwspin_trylock hwlock
              (api.hwspin_trylock hwlock
                (hwspin_lock_test api j hwlock s).state).2).2)).2) := by
  obtain ⟨m, hm⟩ := hwspin_lock_test_split count j hj
  unfold hwspin_lock_test at hpass ⊢
  rw [Int.toNat_ofNat] at hpass ⊢
  obtain ⟨e1, e2, e3⟩ := hwspin_lock_test_loop_add api hwlock (m + 1) j s hpass
  rw [hm, e1, e2, e3]
  constructor
  · intro h1
    simp only [hwspin_lock_test_loop, h1, ne_eq, not_false_eq_true, if_true, and_self]
  · intro h1 h2 h3
    simp only [hwspin_lock_test_loop, h1, h2, h3, ne_eq, not_true_eq_false, not_false_eq_true,
      if_false, if_true, and_self]

theorem hwspin_lock_test_recursive_success_witness :
    (hwspin_lock_test scripted 3 () [0, -16, 0, 0, 0]).ret = -EFAULT ∧
    (hwspin_lock_test scripted 3 () [0, -16, 0, 0, 0]).calls
      = [Event.trylock () 0, Event.trylock () (-16), Event.unlock (), Event.trylock () 0,
         Event.unlock (),
         Event.trylock () 0, Event.trylock () 0, Event.unlock (), Event.unlock ()] :=
  ⟨(hwspin_lock_test_recursive_success scripted () 3 [0, -16, 0, 0, 0] 1
      (by decide) (by decide) (by decide) (by decide)).1,
   (hwspin_lock_test_recursive_success scripted () 3 [0, -16, 0, 0, 0] 1
      (by decide) (by decide) (by decide) (by decide)).2.1⟩

theorem hwspin_lock_test_trylock_failures_witness :
    ((hwspin_lock_test scripted 3 () [0, -16, 0, -16]).ret = -EFAULT ∧
     (hwspin_lock_test scripted 3 () [0, -16, 0, -16]).calls
      = [Event.trylock () 0, Event.trylock () (-16), Event.unlock (), Event.trylock () 0,
         Event.unlock (),
         Event.trylock () (-16)]) ∧
    ((hwspin_lock_test scripted 3 () [0, -16, 0, 0, -16, -16]).ret = -EINVAL ∧
     (hwspin_lock_test scripted 3 () [0, -16, 0, 0, -16, -16]).calls
      = [Event.trylock () 0, Event.trylock () (-16), Event.unlock (), Event.trylock () 0,
         Event.unlock (),
         Event.trylock () 0, Event.trylock () (-16), Event.unlock (),
         Event.trylock () (-16)]) :=
  ⟨⟨((hwspin_lock_test_trylock_failures scripted () 3 [0, -16, 0, -16] 1
        (by decide) (by decide)).1 (by decide)).1,
    ((hwspin_lock_test_trylock_failures scripted () 3 [0, -16, 0, -16] 1
        (by decide) (by decide)).1 (by decide)).2.1⟩,
   ⟨((hwspin_lock_test_trylock_failures scripted () 3 [0, -16, 0, 0, -16, -16] 1
        (by decide) (by decide)).2 (by decide) (by decide) (by decide)).1,
    ((hwspin_lock_test_trylock_failures scripted () 3 [0, -16, 0, 0, -16, -16] 1
        (by decide) (by decide)).2 (by decide) (by decide) (by decide)).2.1⟩⟩

/-! ## The two modes -/

section ModeLemmas

variable {σ H N : Type}

theorem requested_ids_test_loop (api : Backend σ H) (hwlock : H) (rest : List (Event H)) :
    ∀ (n : Nat) (s : σ),
      requested_ids ((hwspin_lock_test_loop api hwlock n s).calls ++ rest)
        = requested_ids rest := by
  intro n
  induction n with
  | zero => intro s; simp [hwspin_lock_test_loop]
  | succ n ih =>
    intro s
    simp only [hwspin_lock_test_loop]
    split_ifs <;> simp [requested_ids, ih]

theorem successful_requests_test_loop (api : Backend σ H) (hwlock : H)
    (rest : List (Event H)) :
    ∀ (n : Nat) (s : σ),
      successful_requests ((hwspin_lock_test_loop api hwlock n s).calls ++ rest)
        = successful_requests rest := by
  intro n
  induction n with
  | zero => intro s; simp [hwspin_lock_test_loop]
  | succ n ih =>
    intro s
    simp only [hwspin_lock_test_loop]
    split_ifs <;> simp [successful_requests, ih]

theorem free_calls_test_loop (api : Backend σ H) (hwlock : H) (rest : List (Event H)) :
    ∀ (n : Nat) (s : σ),
      free_calls ((hwspin_lock_test_loop api hwlock n s).calls ++ rest) = free_calls rest := by
  intro n
  induction n with
  | zero => intro s; simp [hwspin_lock_test_loop]
  | succ n ih =>
    intro s
    simp only [hwspin_lock_test_loop]
    split_ifs <;> simp [free_calls, ih]

theorem frees_match_test_loop [DecidableEq H] (api : Backend σ H) (hwlock : H)
    (rest : List (Event H)) :
    ∀ (n : Nat) (s : σ),
      frees_match (some hwlock) ((hwspin_lock_test_loop api hwlock n s).calls ++ rest)
        = frees_match (some hwlock) rest := by
  intro n
  induction n with
  | zero => intro s; simp [hwspin_lock_test_loop]
  | succ n ih =>
    intro s
    simp only [hwspin_lock_test_loop]
    split_ifs <;> simp [frees_match, ih]

theorem requested_ids_free (hwlock : H) (r : Int) (t : List (Event H)) :
    requested_ids (Event.free hwlock r :: t) = requested_ids t := rfl

theorem requested_ids_get_id (i r : Int) (t : List (Event H)) :
    requested_ids (Event.get_id i r :: t) = requested_ids t := rfl

theorem int_to_u32_natCast (k : Nat) (hk : k < 4294967296) : int_to_u32 (k : Int) = k := by
  unfold int_to_u32
  omega

/-- The sweep requests the ids `k, k + 1, ..., k + n - 1`, whatever the answers. -/
theorem requested_ids_all_locks_loop (api : Registry σ H N) (count : Int) :
    ∀ (n k : Nat) (ret : Int) (s : σ), k + n ≤ 4294967296 →
      requested_ids (hwspin_lock_test_all_locks_loop api count n (k : Int) ret s).calls
        = List.range' k n := by
  intro n
  induction n with
  | zero => intro k ret s _; simp [hwspin_lock_test_all_locks_loop, requested_ids]
  | succ n ih =>
    intro k ret s hk
    have hcast : ((k : Int) + 1) = ((k + 1 : Nat) : Int) := by push_cast; rfl
    simp only [hwspin_lock_test_all_locks_loop]
    split
    · simp only [requested_ids, hcast]
      rw [ih (k + 1) _ _ (by omega), int_to_u32_natCast k (by omega)]
      rfl
    · simp only [requested_ids, hcast, hwspin_lock_test, List.append_eq]
      rw [requested_ids_test_loop, requested_ids_free,
        ih (k + 1) _ _ (by omega), int_to_u32_natCast k (by omega)]
      rfl

theorem of_match_device_of_mem (pdev : platform_device N) (M : Nat)
    (hM : (pdev.compatible, M) ∈
      [("ti,omap4-hwspinlock-test", 32), ("ti,omap5-hwspinlock-test", 32),
       ("ti,dra7-hwspinlock-test", 256), ("ti,am33xx-hwspinlock-test", 128),
       ("ti,am43xx-hwspinlock-test", 128)]) :
    ∃ e, of_match_device omap_hwspinlock_test_of_match pdev = some e ∧ e.data = M ∧
      M ≤ 256 := by
  simp only [List.mem_cons, Prod.mk.injEq, List.mem_singleton, List.not_mem_nil, or_false] at hM
  unfold of_match_device omap_hwspinlock_test_of_match
  rcases hM with ⟨hc, hm⟩ | ⟨hc, hm⟩ | ⟨hc, hm⟩ | ⟨hc, hm⟩ | ⟨hc, hm⟩ <;>
    · rw [hc, hm]
      decide

theorem frees_match_request [DecidableEq H] (id : Nat) (res : Option H) (t : List (Event H)) :
    frees_match none (Event.request id res :: t) = frees_match res t := rfl

theorem frees_match_get_id [DecidableEq H] (i r : Int) (t : List (Event H)) :
    frees_match none (Event.get_id i r :: t) = frees_match none t := rfl

theorem frees_match_free [DecidableEq H] (hwlock : H) (r : Int) (t : List (Event H)) :
    frees_match (some hwlock) (Event.free hwlock r :: t) = frees_match none t := by
  simp [frees_match]

theorem free_calls_request (id : Nat) (res : Option H) (t : List (Event H)) :
    free_calls (Event.request id res :: t) = free_calls t := rfl

theorem free_calls_get_id (i r : Int) (t : List (Event H)) :
    free_calls (Event.get_id i r :: t) = free_calls t := rfl

theorem free_calls_free (hwlock : H) (r : Int) (t : List (Event H)) :
    free_calls (Event.free hwlock r :: t) = free_calls t + 1 := rfl

theorem successful_requests_some (id : Nat) (hwlock : H) (t : List (Event H)) :
    successful_requests (Event.request id (some hwlock) :: t) = successful_requests t + 1 := rfl

theorem successful_requests_none (id : Nat) (t : List (Event H)) :
    successful_requests (Event.request id none :: t) = successful_requests t := rfl

theorem successful_requests_get_id (i r : Int) (t : List (Event H)) :
    successful_requests (Event.get_id i r :: t) = successful_requests t := rfl

theorem successful_requests_free (hwlock : H) (r : Int) (t : List (Event H)) :
    successful_requests (Event.free hwlock r :: t) = successful_requests t := rfl

/-- Request/free discipline of the sweep loop. -/
theorem frees_all_locks_loop [DecidableEq H] (api : Registry σ H N) (count : Int) :
    ∀ (n : Nat) (i ret : Int) (s : σ),
      frees_match none (hwspin_lock_test_all_locks_loop api count n i ret s).calls = true ∧
      free_calls (hwspin_lock_test_all_locks_loop api count n i ret s).calls
        = successful_requests (hwspin_lock_test_all_locks_loop api count n i ret s).calls := by
  intro n
  induction n with
  | zero =>
    intro i ret s
    simp [hwspin_lock_test_all_locks_loop, frees_match, free_calls, successful_requests]
  | succ n ih =>
    intro i ret s
    simp only [hwspin_lock_test_all_locks_loop]
    split
    · rw [frees_match_request, free_calls_request, successful_requests_none]
      exact ih _ _ _
    · simp only [hwspin_lock_test]
      rw [frees_match_request, frees_match_test_loop, frees_match_free, free_calls_request,
        free_calls_test_loop, free_calls_free, successful_requests_some,
        successful_requests_test_loop, successful_requests_free]
      exact ⟨(ih _ _ _).1, by rw [(ih _ _ _).2]⟩

/-- Request/free discipline of the reference-list loop. -/
theorem frees_all_phandle_locks_loop [DecidableEq H] (api : Registry σ H N) (count : Int)
    (np : Option N) :
    ∀ (n : Nat) (i ret : Int) (s : σ),
      frees_match none
          (hwspin_lock_test_all_phandle_locks_loop api count np n i ret s).calls = true ∧
      free_calls (hwspin_lock_test_all_phandle_locks_loop api count np n i ret s).calls
        = successful_requests
            (hwspin_lock_test_all_phandle_locks_loop api count np n i ret s).calls := by
  intro n
  induction n with
  | zero =>
    intro i ret s
    simp [hwspin_lock_test_all_phandle_locks_loop, frees_match, free_calls,
      successful_requests]
  | succ n ih =>
    intro i ret s
    simp only [hwspin_lock_test_all_phandle_locks_loop]
    split_ifs with hneg
    · rw [frees_match_get_id, free_calls_get_id, successful_requests_get_id]
      exact ih _ _ _
    · split
      · rw [frees_match_get_id, free_calls_get_id, successful_requests_get_id,
          frees_match_request, free_calls_request, successful_requests_none]
        exact ih _ _ _
      · simp only [hwspin_lock_test]
        rw [frees_match_get_id, free_calls_get_id, successful_requests_get_id,
          frees_match_request, frees_match_test_loop, frees_match_free, free_calls_request,
          free_calls_test_loop, free_calls_free, successful_requests_some,
          successful_requests_test_loop, successful_requests_free]
        exact ⟨(ih _ _ _).1, by rw [(ih _ _ _).2]⟩

end ModeLemmas

/-- Claim C9: for a test node whose variant is in the compiled-in table with
maximum lock count `M` (32 for omap4 and omap5, 256 for dra7, 128 for am33xx
and am43xx), `hwspin_lock_test_all_locks` returns, and the ids it passed to
`hwspin_lock_request_specific` are exactly `0, 1, ..., M - 1`, once each and
in increasing order, for every registry (whatever requests, protocol runs
and frees answer), every iteration count and every starting state. -/
theorem hwspin_lock_test_all_locks_requests {σ H N : Type} (api : Registry σ H N)
    (count : Int) (pdev : platform_device N) (s : σ) (M : Nat)
    (hM : (pdev.compatible, M) ∈
      [("ti,omap4-hwspinlock-test", 32), ("ti,omap5-hwspinlock-test", 32),
       ("ti,dra7-hwspinlock-test", 256), ("ti,am33xx-hwspinlock-test", 128),
       ("ti,am43xx-hwspinlock-test", 128)]) :
    ∃ out, hwspin_lock_test_all_locks api count pdev s = some out ∧
      requested_ids out.calls = List.range M := by
  obtain ⟨e, he, hd, hle⟩ := of_match_device_of_mem pdev M hM
  unfold hwspin_lock_test_all_locks
  rw [he]
  refine ⟨_, rfl, ?_⟩
  have hmax : (u32_to_int (e.data % 4294967296)).toNat = M := by
    rw [hd, Nat.mod_eq_of_lt (by omega), u32_to_int_small M (by omega)]
    exact Int.toNat_ofNat M
  simp only [hmax]
  have h0 : (0 : Int) = ((0 : Nat) : Int) := rfl
  rw [h0, requested_ids_all_locks_loop api count M 0 _ s (by omega), List.range_eq_range']

theorem hwspin_lock_test_all_locks_requests_witness :
    ∃ out, hwspin_lock_test_all_locks (scripted_registry [0, 1, 3] 0 []) 1
        (platform_device.mk (some ()) "ti,omap4-hwspinlock-test") [0, -16, 0, 0, 0] = some out ∧
      requested_ids out.calls = List.range 32 :=
  hwspin_lock_test_all_locks_requests (scripted_registry [0, 1, 3] 0 []) 1
    (platform_device.mk (some ()) "ti,omap4-hwspinlock-test") [0, -16, 0, 0, 0] 32 (by decide)

/-- Claim C10: for a test node that matches the table, both modes return, and the
calls of each obey the request/free discipline `frees_match`: a handle
returned by `hwspin_lock_request_specific` is passed to `hwspin_lock_free`
exactly once, after the trylock/unlock calls of its protocol run (whatever
that run returned), before anything else is requested, and
`hwspin_lock_free` is called for nothing else, in particular not after a
failed request.  Hence the number of `hwspin_lock_free` calls equals the
number of successful requests. -/
theorem modes_free_what_they_request {σ H N : Type} [DecidableEq H] (api : Registry σ H N)
    (count : Int) (pdev : platform_device N) (s : σ) (e : of_device_id)
    (hmatch : of_match_device omap_hwspinlock_test_of_match pdev = some e) :
    (∃ out, hwspin_lock_test_all_locks api count pdev s = some out ∧
      frees_match none out.calls = true ∧
      free_calls out.calls = successful_requests out.calls) ∧
    (∃ out, hwspin_lock_test_all_phandle_locks api count pdev s = some out ∧
      frees_match none out.calls = true ∧
      free_calls out.calls = successful_requests out.calls) := by
  unfold hwspin_lock_test_all_locks hwspin_lock_test_all_phandle_locks
  rw [hmatch]
  exact ⟨⟨_, rfl, frees_all_locks_loop api count _ _ _ _⟩,
    ⟨_, rfl, frees_all_phandle_locks_loop api count _ _ _ _ _⟩⟩

theorem modes_free_what_they_request_witness :
    (∃ out, hwspin_lock_test_all_locks (scripted_registry [5, 9] 0 [5, -2, 9]) 1
        (platform_device.mk (some ()) "ti,omap4-hwspinlock-test") [0, -16, 0, 0, 0] = some out ∧
      frees_match none out.calls = true ∧
      free_calls out.calls = successful_requests out.calls) ∧
    (∃ out, hwspin_lock_test_all_phandle_locks (scripted_registry [5, 9] 0 [5, -2, 9]) 1
        (platform_device.mk (some ()) "ti,omap4-hwspinlock-test") [0, -16, 0, 0, 0] = some out ∧
      frees_match none out.calls = true ∧
      free_calls out.calls = successful_requests out.calls) :=
  modes_free_what_they_request (scripted_registry [5, 9] 0 [5, -2, 9]) 1
    (platform_device.mk (some ()) "ti,omap4-hwspinlock-test") [0, -16, 0, 0, 0]
    (of_device_id.mk "ti,omap4-hwspinlock-test" 32) (by decide)

/-! ## The reference-list mode: resolutions -/

section ResolutionLemmas

variable {σ H N : Type}

theorem resolved_indices_test_loop (api : Backend σ H) (hwlock : H) (rest : List (Event H)) :
    ∀ (n : Nat) (s : σ),
      resolved_indices ((hwspin_lock_test_loop api hwlock n s).calls ++ rest)
        = resolved_indices rest := by
  intro n
  induction n with
  | zero => intro s; simp [hwspin_lock_test_loop]
  | succ n ih =>
    intro s
    simp only [hwspin_lock_test_loop]
    split_ifs <;> simp [resolved_indices, ih]

theorem resolution_results_test_loop (api : Backend σ H) (hwlock : H)
    (rest : List (Event H)) :
    ∀ (n : Nat) (s : σ),
      resolution_results ((hwspin_lock_test_loop api hwlock n s).calls ++ rest)
        = resolution_results rest := by
  intro n
  induction n with
  | zero => intro s; simp [hwspin_lock_test_loop]
  | succ n ih =>
    intro s
    simp only [hwspin_lock_test_loop]
    split_ifs <;> simp [resolution_results, ih]

theorem resolutions_requested_test_loop (api : Backend σ H) (hwlock : H)
    (rest : List (Event H)) :
    ∀ (n : Nat) (s : σ),
      resolutions_requested none ((hwspin_lock_test_loop api hwlock n s).calls ++ rest)
        = resolutions_requested none rest := by
  intro n
  induction n with
  | zero => intro s; simp [hwspin_lock_test_loop]
  | succ n ih =>
    intro s
    simp only [hwspin_lock_test_loop]
    split_ifs <;> simp [resolutions_requested, ih]

theorem int_to_u32_of_nonneg (g : Int) (h0 : 0 ≤ g) (h1 : g ≤ INT_MAX) :
    ((int_to_u32 g : Nat) : Int) = g ∧ int_to_u32 g = g.toNat := by
  unfold INT_MAX at h1
  unfold int_to_u32
  omega

/-- A failure already recorded in `ret` survives the rest of the reference-list
loop. -/
theorem phandle_loop_ret_ne_zero (api : Registry σ H N) (count : Int) (np : Option N) :
    ∀ (n : Nat) (i ret : Int) (s : σ), ret ≠ 0 →
      (hwspin_lock_test_all_phandle_locks_loop api count np n i ret s).ret ≠ 0 := by
  intro n
  induction n with
  | zero => intro i ret s h; simpa [hwspin_lock_test_all_phandle_locks_loop] using h
  | succ n ih =>
    intro i ret s h
    simp only [hwspin_lock_test_all_phandle_locks_loop]
    split_ifs with hneg
    · exact ih _ _ _ (by decide)
    · split
      · exact ih _ _ _ (by decide)
      · apply ih
        split_ifs with h1 h2
        · exact h1
        · exact h2
        · exact h

/-- Shape of the calls of the reference-list loop: indices in order, every
request right after the resolution that produced its id. -/
theorem phandle_loop_resolutions (api : Registry σ H N) (count : Int) (np : Option N)
    (hrange : ∀ (i : Int) (s : σ), (api.of_hwspin_lock_get_id np i s).1 ≤ INT_MAX) :
    ∀ (n k : Nat) (ret : Int) (s : σ),
      resolved_indices (hwspin_lock_test_all_phandle_locks_loop api count np n k ret s).calls
        = (List.range' k n).map (fun x : Nat => (x : Int)) ∧
      resolutions_requested none
        (hwspin_lock_test_all_phandle_locks_loop api count np n k ret s).calls = true ∧
      requested_ids (hwspin_lock_test_all_phandle_locks_loop api count np n k ret s).calls
        = ((resolution_results
            (hwspin_lock_test_all_phandle_locks_loop api count np n k ret s).calls).filter
              (fun r => decide (0 ≤ r))).map Int.toNat := by
  intro n
  induction n with
  | zero =>
    intro k ret s
    simp [hwspin_lock_test_all_phandle_locks_loop, resolved_indices, resolutions_requested,
      requested_ids, resolution_results]
  | succ n ih =>
    intro k ret s
    have hcast : ((k : Int) + 1) = ((k + 1 : Nat) : Int) := by push_cast; rfl
    have ih1 := fun (r : Int) (t : σ) => (ih (k + 1) r t).1
    have ih2 := fun (r : Int) (t : σ) => (ih (k + 1) r t).2.1
    have ih3 := fun (r : Int) (t : σ) => (ih (k + 1) r t).2.2
    simp only [hwspin_lock_test_all_phandle_locks_loop, hcast]
    split_ifs with hneg
    · simp only [resolved_indices, resolutions_requested, requested_ids, resolution_results,
        hneg, if_true, ih1, ih2, ih3, List.range'_succ, List.map_cons, true_and]
      rw [List.filter_cons_of_neg (by simpa using hneg)]
    · have hg := int_to_u32_of_nonneg _ (not_lt.mp hneg) (hrange k s)
      split
      · simp only [resolved_indices, resolutions_requested, requested_ids, resolution_results,
          hneg, if_false, ih1, ih2, ih3, List.range'_succ, List.map_cons, true_and, hg.1,
          decide_True, Bool.true_and]
        rw [List.filter_cons_of_pos (by simpa using hneg), List.map_cons, hg.2]
      · simp only [hwspin_lock_test]
        simp only [resolved_indices, resolutions_requested, requested_ids, resolution_results,
          hneg, if_false, List.range'_succ, List.map_cons, hg.1, decide_True, Bool.true_and]
        rw [resolved_indices_test_loop, resolutions_requested_test_loop,
          requested_ids_test_loop, resolution_results_test_loop]
        simp only [resolved_indices, resolutions_requested, requested_ids, resolution_results,
          ih1, ih2, ih3, true_and]
        rw [List.filter_cons_of_pos (by simpa using hneg), List.map_cons, hg.2]

/-- A negative resolution makes the result of the reference-list loop nonzero. -/
theorem phandle_loop_negative_resolution (api : Registry σ H N) (count : Int)
    (np : Option N) :
    ∀ (n : Nat) (i ret : Int) (s : σ),
      (∃ r ∈ resolution_results
          (hwspin_lock_test_all_phandle_locks_loop api count np n i ret s).calls, r < 0) →
      (hwspin_lock_test_all_phandle_locks_loop api count np n i ret s).ret ≠ 0 := by
  intro n
  induction n with
  | zero =>
    intro i ret s h
    simp [hwspin_lock_test_all_phandle_locks_loop, resolution_results] at h
  | succ n ih =>
    intro i ret s
    simp only [hwspin_lock_test_all_phandle_locks_loop]
    split_ifs with hneg
    · intro _
      exact phandle_loop_ret_ne_zero api count np n _ _ _ (by decide)
    · split
      · intro _
        exact phandle_loop_ret_ne_zero api count np n _ _ _ (by decide)
      · simp only [hwspin_lock_test, resolution_results]
        rw [resolution_results_test_loop]
        simp only [resolution_results, List.mem_cons]
        rintro ⟨r, hr | hr, hlt⟩
        · exact absurd (hr ▸ hlt) hneg
        · exact ih _ _ _ ⟨r, hr, hlt⟩

end ResolutionLemmas

/-- Claim C11: on a test node that matches the table and has `k` references
(`of_count_phandle_with_args` returns `k`), with `of_hwspin_lock_get_id`
returning C `int`s, `hwspin_lock_test_all_phandle_locks` returns and its
calls are such that: the indices resolved are `0, ..., k - 1`, once each and
in order; a resolution that yields a negative value is followed by no request
and one that yields `g >= 0` is followed at once by the request of exactly
`g` (`resolutions_requested`), so that the ids requested are the non-negative
resolution results, in order; and if some resolution yielded a negative
value the mode result is nonzero. -/
theorem hwspin_lock_test_all_phandle_locks_resolutions {σ H N : Type}
    (api : Registry σ H N) (count : Int) (pdev : platform_device N) (s : σ)
    (e : of_device_id)
    (hmatch : of_match_device omap_hwspinlock_test_of_match pdev = some e)
    (hrange : ∀ (i : Int) (t : σ), (api.of_hwspin_lock_get_id pdev.of_node i t).1 ≤ INT_MAX) :
    ∃ out, hwspin_lock_test_all_phandle_locks api count pdev s = some out ∧
      resolved_indices out.calls
        = (List.range (api.of_count_phandle_with_args pdev.of_node
            "hwlocks" "#hwlock-cells").toNat).map (fun x : Nat => (x : Int)) ∧
      resolutions_requested none out.calls = true ∧
      requested_ids out.calls
        = ((resolution_results out.calls).filter (fun r => decide (0 ≤ r))).map Int.toNat ∧
      ((∃ r ∈ resolution_results out.calls, r < 0) → out.ret ≠ 0) := by
  unfold hwspin_lock_test_all_phandle_locks
  rw [hmatch]
  have h := phandle_loop_resolutions api count pdev.of_node hrange
    (api.of_count_phandle_with_args pdev.of_node "hwlocks" "#hwlock-cells").toNat 0 0 s
  refine ⟨_, rfl, ?_, h.2.1, h.2.2, ?_⟩
  · rw [List.range_eq_range']
    exact h.1
  · exact phandle_loop_negative_resolution api count pdev.of_node _ 0 0 s

theorem hwspin_lock_test_all_phandle_locks_resolutions_witness :
    (∃ out, hwspin_lock_test_all_phandle_locks (scripted_registry [5, 9] 0 [5, -2, 9]) 1
        (platform_device.mk (some ()) "ti,dra7-hwspinlock-test")
        [0, -16, 0, 0, -16, 0] = some out ∧
      resolved_indices out.calls = [0, 1, 2] ∧
      resolutions_requested none out.calls = true ∧
      requested_ids out.calls
        = ((resolution_results out.calls).filter (fun r => decide (0 ≤ r))).map Int.toNat ∧
      ((∃ r ∈ resolution_results out.calls, r < 0) → out.ret ≠ 0)) ∧
    (hwspin_lock_test_all_phandle_locks (scripted_registry [5, 9] 0 [5, 9]) 1
        (platform_device.mk (some ()) "ti,dra7-hwspinlock-test")
        [0, -16, 0, 0, -16, 0]).map (fun out => (requested_ids out.calls, out.ret))
      = some ([5, 9], 0) :=
  ⟨hwspin_lock_test_all_phandle_locks_resolutions (scripted_registry [5, 9] 0 [5, -2, 9]) 1
      (platform_device.mk (some ()) "ti,dra7-hwspinlock-test") [0, -16, 0, 0, -16, 0]
      (of_device_id.mk "ti,dra7-hwspinlock-test" 256) (by decide)
      (fun i _ => by
        show ([(5 : Int), -2, 9].get? i.toNat).getD (-EINVAL) ≤ INT_MAX
        rcases i.toNat with _ | _ | _ | _ | n <;>
          first | decide | exact (by decide : -EINVAL ≤ INT_MAX)),
   by decide⟩

/-! ## Mode-level results -/

section ResultLemmas

variable {σ H N : Type}

theorem ret_update_eq_zero (a b c : Int) :
    (if a ≠ 0 then a else if b ≠ 0 then b else c) = 0 ↔ a = 0 ∧ b = 0 ∧ c = 0 := by
  split_ifs with h1 h2
  · exact ⟨fun h => absurd h h1, fun h => h.1⟩
  · exact ⟨fun h => absurd h h2, fun h => h.2.1⟩
  · exact ⟨fun h => ⟨not_not.mp h1, not_not.mp h2, h⟩, fun h => h.2.2⟩

/-- The sweep loop ends with `ret = 0` exactly when it started with `ret = 0` and
no iteration had a failure. -/
theorem sweep_loop_ret_eq_zero_iff (api : Registry σ H N) (count : Int) :
    ∀ (n : Nat) (i ret : Int) (s : σ),
      (hwspin_lock_test_all_locks_loop api count n i ret s).ret = 0
        ↔ ret = 0 ∧ sweep_no_failure api count n i s = true := by
  intro n
  induction n with
  | zero => intro i ret s; simp [hwspin_lock_test_all_locks_loop, sweep_no_failure]
  | succ n ih =>
    intro i ret s
    cases hq : (api.hwspin_lock_request_specific (int_to_u32 i) s).1 with
    | none =>
      simp only [hwspin_lock_test_all_locks_loop, sweep_no_failure, hq, ih]
      simp [ EIO]
    | some hwlock =>
      simp only [hwspin_lock_test_all_locks_loop, sweep_no_failure, hq, ih,
        ret_update_eq_zero, Bool.and_eq_true, decide_eq_true_eq]
      tauto

/-- The reference-list loop ends with `ret = 0` exactly when it started with
`ret = 0` and no iteration had a failure. -/
theorem phandle_loop_ret_eq_zero_iff (api : Registry σ H N) (count : Int) (np : Option N) :
    ∀ (n : Nat) (i ret : Int) (s : σ),
      (hwspin_lock_test_all_phandle_locks_loop api count np n i ret s).ret = 0
        ↔ ret = 0 ∧ phandle_no_failure api count np n i s = true := by
  intro n
  induction n with
  | zero =>
    intro i ret s
    simp [hwspin_lock_test_all_phandle_locks_loop, phandle_no_failure]
  | succ n ih =>
    intro i ret s
    by_cases hneg : (api.of_hwspin_lock_get_id np i s).1 < 0
    · simp only [hwspin_lock_test_all_phandle_locks_loop, phandle_no_failure, hneg, if_true, ih]
      simp [EINVAL]
    · cases hq : (api.hwspin_lock_request_specific
          (int_to_u32 (api.of_hwspin_lock_get_id np i s).1)
          (api.of_hwspin_lock_get_id np i s).2).1 with
      | none =>
        simp only [hwspin_lock_test_all_phandle_locks_loop, phandle_no_failure, hneg, if_false,
          hq, ih]
        simp [EINVAL]
      | some hwlock =>
        simp only [hwspin_lock_test_all_phandle_locks_loop, phandle_no_failure, hneg, if_false,
          hq, ih, ret_update_eq_zero, Bool.and_eq_true, decide_eq_true_eq]
        tauto

end ResultLemmas

/-- Claim C12: on a test node that matches the table, each mode function returns,
and its result is 0 if and only if no per-lock failure occurred during the
run (`sweep_no_failure`, `phandle_no_failure`: every id resolution, every
request, every protocol run and every free succeeded); and in both loops a
nonzero `ret` recorded so far is still nonzero at the end, whatever the later
locks do. -/
theorem mode_result_zero_iff_no_failure {σ H N : Type} (api : Registry σ H N) (count : Int)
    (pdev : platform_device N) (s : σ) (e : of_device_id)
    (hmatch : of_match_device omap_hwspinlock_test_of_match pdev = some e) :
    (∃ out, hwspin_lock_test_all_locks api count pdev s = some out ∧
      (out.ret = 0 ↔
        sweep_no_failure api count (u32_to_int (e.data % 4294967296)).toNat 0 s = true)) ∧
    (∃ out, hwspin_lock_test_all_phandle_locks api count pdev s = some out ∧
      (out.ret = 0 ↔
        phandle_no_failure api count pdev.of_node
          (api.of_count_phandle_with_args pdev.of_node "hwlocks" "#hwlock-cells").toNat
          0 s = true)) ∧
    (∀ (n : Nat) (i ret : Int) (t : σ), ret ≠ 0 →
      (hwspin_lock_test_all_locks_loop api count n i ret t).ret ≠ 0) ∧
    (∀ (n : Nat) (i ret : Int) (t : σ), ret ≠ 0 →
      (hwspin_lock_test_all_phandle_locks_loop api count pdev.of_node n i ret t).ret ≠ 0) := by
  unfold hwspin_lock_test_all_locks hwspin_lock_test_all_phandle_locks
  rw [hmatch]
  refine ⟨⟨_, rfl, ?_⟩, ⟨_, rfl, ?_⟩, ?_, ?_⟩
  · rw [sweep_loop_ret_eq_zero_iff]
    simp
  · rw [phandle_loop_ret_eq_zero_iff]
    simp
  · intro n i ret t hne h
    exact hne ((sweep_loop_ret_eq_zero_iff api count n i ret t).mp h).1
  · intro n i ret t hne h
    exact hne ((phandle_loop_ret_eq_zero_iff api count pdev.of_node n i ret t).mp h).1

theorem mode_result_zero_iff_no_failure_witness :
    (∃ out, hwspin_lock_test_all_locks (scripted_registry (List.range 32) 0 [0, 1]) 0
        (platform_device.mk (some ()) "ti,omap4-hwspinlock-test") [] = some out ∧
      (out.ret = 0 ↔
        sweep_no_failure (scripted_registry (List.range 32) 0 [0, 1]) 0
          (u32_to_int ((of_device_id.mk "ti,omap4-hwspinlock-test" 32).data
            % 4294967296)).toNat 0 [] = true)) ∧
    (∃ out, hwspin_lock_test_all_phandle_locks (scripted_registry (List.range 32) 0 [0, 1]) 0
        (platform_device.mk (some ()) "ti,omap4-hwspinlock-test") [] = some out ∧
      (out.ret = 0 ↔
        phandle_no_failure (scripted_registry (List.range 32) 0 [0, 1]) 0 (some ())
          ((scripted_registry (List.range 32) 0 [0, 1]).of_count_phandle_with_args (some ())
            "hwlocks" "#hwlock-cells").toNat 0 [] = true)) :=
  ⟨(mode_result_zero_iff_no_failure (scripted_registry (List.range 32) 0 [0, 1]) 0
      (platform_device.mk (some ()) "ti,omap4-hwspinlock-test") []
      (of_device_id.mk "ti,omap4-hwspinlock-test" 32) (by decide)).1,
   (mode_result_zero_iff_no_failure (scripted_registry (List.range 32) 0 [0, 1]) 0
      (platform_device.mk (some ()) "ti,omap4-hwspinlock-test") []
      (of_device_id.mk "ti,omap4-hwspinlock-test" 32) (by decide)).2.1⟩

/-- Claim C13: when `pdev->dev.of_node` is `NULL`, `omap_hwspinlock_test_probe`
returns `-EINVAL` and calls nothing.  For a node that is present and matches
the table, it returns; its calls are those of the reference-list mode
followed by those of the sweep run from the state the first mode left; and
its result is 0 whatever the two mode results are.  So its result is
`-EINVAL` only when the node is absent. -/
theorem omap_hwspinlock_test_probe_result {σ H N : Type} (api : Registry σ H N)
    (count : Int) (pdev : platform_device N) (s : σ) :
    (pdev.of_node = none →
      ∃ out, omap_hwspinlock_test_probe api count pdev s = some out ∧
        out.ret = -EINVAL ∧ out.calls = [] ∧ out.state = s) ∧
    (∀ e : of_device_id, pdev.of_node ≠ none →
      of_match_device omap_hwspinlock_test_of_match pdev = some e →
      ∃ a b out, hwspin_lock_test_all_phandle_locks api count pdev s = some a ∧
        hwspin_lock_test_all_locks api count pdev a.state = some b ∧
        omap_hwspinlock_test_probe api count pdev s = some out ∧
        out.ret = 0 ∧ out.calls = a.calls ++ b.calls ∧ out.state = b.state) ∧
    (∀ out, omap_hwspinlock_test_probe api count pdev s = some out →
      (out.ret = -EINVAL ↔ pdev.of_node = none)) := by
  refine ⟨?_, ?_, ?_⟩
  · intro hnone
    unfold omap_hwspinlock_test_probe
    rw [hnone]
    exact ⟨_, rfl, rfl, rfl, rfl⟩
  · intro e hsome hmatch
    obtain ⟨np, hnp⟩ := Option.ne_none_iff_exists'.mp hsome
    unfold omap_hwspinlock_test_probe
    rw [hnp]
    have ha : ∃ a, hwspin_lock_test_all_phandle_locks api count pdev s = some a := by
      unfold hwspin_lock_test_all_phandle_locks
      rw [hmatch]
      exact ⟨_, rfl⟩
    obtain ⟨a, ha⟩ := ha
    have hb : ∃ b, hwspin_lock_test_all_locks api count pdev a.state = some b := by
      unfold hwspin_lock_test_all_locks
      rw [hmatch]
      exact ⟨_, rfl⟩
    obtain ⟨b, hb⟩ := hb
    refine ⟨a, b, { ret := 0, state := b.state, calls := a.calls ++ b.calls }, ha, hb, ?_,
      rfl, rfl, rfl⟩
    simp only [ha, hb]
  · intro out hout
    unfold omap_hwspinlock_test_probe at hout
    cases hnode : pdev.of_node with
    | none =>
      rw [hnode] at hout
      simp only [Option.some.injEq] at hout
      rw [← hout]
      simp
    | some np =>
      rw [hnode] at hout
      simp only at hout
      split at hout
      · exact absurd hout (by simp)
      · split at hout
        · exact absurd hout (by simp)
        · simp only [Option.some.injEq] at hout
          rw [← hout]
          simp [EINVAL]

theorem omap_hwspinlock_test_probe_result_witness :
    (∃ out, omap_hwspinlock_test_probe (failing_registry 2) 1
        (platform_device.mk none "ti,omap4-hwspinlock-test") () = some out ∧
      out.ret = -EINVAL ∧ out.calls = [] ∧ out.state = ()) ∧
    (∃ a b out, hwspin_lock_test_all_phandle_locks (failing_registry 2) 1
        (platform_device.mk (some ()) "ti,omap4-hwspinlock-test") () = some a ∧
      hwspin_lock_test_all_locks (failing_registry 2) 1
        (platform_device.mk (some ()) "ti,omap4-hwspinlock-test") a.state = some b ∧
      omap_hwspinlock_test_probe (failing_registry 2) 1
        (platform_device.mk (some ()) "ti,omap4-hwspinlock-test") () = some out ∧
      out.ret = 0 ∧ out.calls = a.calls ++ b.calls ∧ out.state = b.state) ∧
    (hwspin_lock_test_all_phandle_locks (failing_registry 2) 1
        (platform_device.mk (some ()) "ti,omap4-hwspinlock-test") ()).map (fun a => a.ret)
      = some (-EINVAL) ∧
    (hwspin_lock_test_all_locks (failing_registry 2) 1
        (platform_device.mk (some ()) "ti,omap4-hwspinlock-test") ()).map (fun b => b.ret)
      = some (- EIO) :=
  ⟨(omap_hwspinlock_test_probe_result (failing_registry 2) 1
      (platform_device.mk none "ti,omap4-hwspinlock-test") ()).1 rfl,
   (omap_hwspinlock_test_probe_result (failing_registry 2) 1
      (platform_device.mk (some ()) "ti,omap4-hwspinlock-test") ()).2.1
      (of_device_id.mk "ti,omap4-hwspinlock-test" 32) (by decide) (by decide),
   by decide, by decide⟩

/-! ## Injectivity of the global id -/

theorem wrap_int_congr (x : Int) : (wrap_int x - x) % 4294967296 = 0 := by
  unfold wrap_int u32_to_int int_to_u32
  split_ifs <;> omega

theorem wrap_int_bounds (x : Int) : -2147483648 ≤ wrap_int x ∧ wrap_int x ≤ 2147483647 := by
  unfold wrap_int u32_to_int int_to_u32
  split_ifs <;> omega

/-- The id of the lock at a valid index, as a wrapped sum. -/
theorem hwlock_to_id_lock_at (sz : Int) (b : hwspinlock_device) (i : Int) (hsz : 0 < sz)
    (hnum : b.num_locks ≤ INT_MAX) (hi0 : 0 ≤ i) (hi : i < b.num_locks) :
    hwlock_to_id sz (lock_at sz b i) = wrap_int (b.base_id + i) := by
  unfold INT_MAX at hnum
  unfold hwlock_to_id
  simp only
  rw [ptr_diff_lock_at sz b i hsz, wrap_int_of_range i (by omega) (by omega)]
  rfl

/-- The id of the lock at a valid index of a bank whose range fits in `int`. -/
theorem hwlock_to_id_of_fits (sz : Int) (b : hwspinlock_device) (i : Int) (hsz : 0 < sz)
    (hfit : range_fits_int b) (hi0 : 0 ≤ i) (hi : i < b.num_locks) :
    hwlock_to_id sz (lock_at sz b i) = b.base_id + i := by
  obtain ⟨h1, h2, h3, h4⟩ := hfit
  rw [hwlock_to_id_lock_at sz b i hsz h3 hi0 hi]
  unfold INT_MIN at h1
  unfold INT_MAX at h3 h4
  exact wrap_int_of_range _ (by omega) (by omega)

/-- Claim C14, counterexample: the banks `[INT_MIN, INT_MIN + 1)` and
`[INT_MAX, INT_MAX + 2)` have disjoint ranges, yet the lock at index 0 of the
first and the lock at index 1 of the second get the same id `INT_MIN`; and
that id of the second bank lies outside its own range. -/
theorem hwlock_to_id_collision_across_banks :
    ranges_disjoint (hwspinlock_device.mk (-2147483648) 1 4096)
      (hwspinlock_device.mk 2147483647 2 8192) ∧
    (0 : Int) < (hwspinlock_device.mk (-2147483648) 1 4096).num_locks ∧
    (1 : Int) < (hwspinlock_device.mk 2147483647 2 8192).num_locks ∧
    hwlock_to_id 24 (lock_at 24 (hwspinlock_device.mk (-2147483648) 1 4096) 0)
      = hwlock_to_id 24 (lock_at 24 (hwspinlock_device.mk 2147483647 2 8192) 1) ∧
    ¬ in_range (hwspinlock_device.mk 2147483647 2 8192)
        (hwlock_to_id 24 (lock_at 24 (hwspinlock_device.mk 2147483647 2 8192) 1)) := by
  refine ⟨?_, by decide, by decide, by decide, ?_⟩
  · intro g h
    simp only [in_range] at h
    omega
  · have h : hwlock_to_id 24 (lock_at 24 (hwspinlock_device.mk 2147483647 2 8192) 1)
        = -2147483648 := by decide
    rw [h]
    simp only [in_range]
    omega

/-- Claim C14, amended: within one bank (with `int` fields) `hwlock_to_id` is
injective in the valid local index.  For two banks whose id ranges fit in
`int` (`base_id + num_locks - 1 <= INT_MAX`) and are disjoint, locks at valid
indices of the two banks get different ids.  For a bank whose range fits in
`int`, the ids of its locks are exactly the elements of its range. -/
theorem hwlock_to_id_injective (sz : Int) (a b : hwspinlock_device) (hsz : 0 < sz)
    (ha : INT_MIN ≤ a.base_id ∧ a.base_id ≤ INT_MAX ∧ a.num_locks ≤ INT_MAX) :
    (∀ i j : Int, 0 ≤ i → i < a.num_locks → 0 ≤ j → j < a.num_locks →
      hwlock_to_id sz (lock_at sz a i) = hwlock_to_id sz (lock_at sz a j) → i = j) ∧
    (range_fits_int a → range_fits_int b → ranges_disjoint a b →
      ∀ i j : Int, 0 ≤ i → i < a.num_locks → 0 ≤ j → j < b.num_locks →
        hwlock_to_id sz (lock_at sz a i) ≠ hwlock_to_id sz (lock_at sz b j)) ∧
    (range_fits_int a →
      ∀ g : Int, in_range a g ↔
        ∃ i : Int, 0 ≤ i ∧ i < a.num_locks ∧ hwlock_to_id sz (lock_at sz a i) = g) := by
  obtain ⟨ha1, ha2, ha3⟩ := ha
  refine ⟨?_, ?_, ?_⟩
  · intro i j hi0 hi hj0 hj h
    rw [hwlock_to_id_lock_at sz a i hsz ha3 hi0 hi,
      hwlock_to_id_lock_at sz a j hsz ha3 hj0 hj] at h
    have h1 := wrap_int_congr (a.base_id + i)
    have h2 := wrap_int_congr (a.base_id + j)
    unfold INT_MAX at ha3
    rw [h] at h1
    omega
  · intro hfa hfb hdis i j hi0 hi hj0 hj h
    rw [hwlock_to_id_of_fits sz a i hsz hfa hi0 hi,
      hwlock_to_id_of_fits sz b j hsz hfb hj0 hj] at h
    refine hdis (a.base_id + i) ⟨?_, ?_⟩
    · simp only [in_range]
      omega
    · simp only [in_range]
      omega
  · intro hfa g
    constructor
    · intro hg
      simp only [in_range] at hg
      refine ⟨g - a.base_id, by omega, by omega, ?_⟩
      rw [hwlock_to_id_of_fits sz a _ hsz hfa (by omega) (by omega)]
      omega
    · rintro ⟨i, hi0, hi, hg⟩
      rw [hwlock_to_id_of_fits sz a i hsz hfa hi0 hi] at hg
      simp only [in_range]
      omega

theorem hwlock_to_id_injective_witness :
    hwlock_to_id 24 (lock_at 24 (hwspinlock_device.mk 0 32 4096) 3)
      ≠ hwlock_to_id 24 (lock_at 24 (hwspinlock_device.mk 32 32 8192) 5) ∧
    (in_range (hwspinlock_device.mk 0 32 4096) 7 ↔
      ∃ i : Int, 0 ≤ i ∧ i < (hwspinlock_device.mk 0 32 4096).num_locks ∧
        hwlock_to_id 24 (lock_at 24 (hwspinlock_device.mk 0 32 4096) i) = 7) :=
  ⟨(hwlock_to_id_injective 24 (hwspinlock_device.mk 0 32 4096)
      (hwspinlock_device.mk 32 32 8192) (by decide) (by decide)).2.1
      (by decide) (by decide)
      (fun g h => by simp only [in_range] at h; omega)
      3 5 (by decide) (by decide) (by decide) (by decide),
   (hwlock_to_id_injective 24 (hwspinlock_device.mk 0 32 4096)
      (hwspinlock_device.mk 32 32 8192) (by decide) (by decide)).2.2 (by decide) 7⟩

/-! ## `hwspin_lock_test`: call counts, verdict and balance -/

theorem ideal_lock_loop_calls (n : Nat) :
    (hwspin_lock_test_loop ideal_lock () n LockState.FREE).calls = repetitions five_steps n := by
  induction n with
  | zero => simp [hwspin_lock_test_loop, repetitions]
  | succ n ih =>
    simp only [hwspin_lock_test_loop, ideal_lock, EBUSY, repetitions, five_steps]
    simpa [ideal_lock, EBUSY] using ih

theorem trylock_calls_repetitions (n : Nat) :
    trylock_calls (repetitions five_steps n) = 3 * n := by
  induction n with
  | zero => rfl
  | succ n ih =>
    have h : trylock_calls (repetitions five_steps (n + 1))
        = trylock_calls (repetitions five_steps n) + 1 + 1 + 1 := rfl
    rw [h, ih]
    omega

theorem unlock_calls_repetitions (n : Nat) :
    unlock_calls (repetitions five_steps n) = 2 * n := by
  induction n with
  | zero => rfl
  | succ n ih =>
    have h : unlock_calls (repetitions five_steps (n + 1))
        = unlock_calls (repetitions five_steps n) + 1 + 1 := rfl
    rw [h, ih]
    omega

/-- Claim C15: on the ideal lock, starting `FREE`, with iteration count `N >= 0`,
the calls of `hwspin_lock_test` are exactly `N` repetitions of the 5-step
sequence trylock, trylock, unlock, trylock, unlock (answered success, busy,
success), hence `3 N` trylock calls and `2 N` unlock calls. -/
theorem hwspin_lock_test_ideal_lock_calls (N : Int) (hN : 0 ≤ N) :
    (hwspin_lock_test ideal_lock N () LockState.FREE).calls = repetitions five_steps N.toNat ∧
    ((N.toNat : Nat) : Int) = N ∧
    ((trylock_calls (hwspin_lock_test ideal_lock N () LockState.FREE).calls : Nat) : Int)
      = 3 * N ∧
    ((unlock_calls (hwspin_lock_test ideal_lock N () LockState.FREE).calls : Nat) : Int)
      = 2 * N := by
  have hc : (hwspin_lock_test ideal_lock N () LockState.FREE).calls
      = repetitions five_steps N.toNat := ideal_lock_loop_calls N.toNat
  refine ⟨hc, Int.toNat_of_nonneg hN, ?_, ?_⟩
  · rw [hc, trylock_calls_repetitions]
    omega
  · rw [hc, unlock_calls_repetitions]
    omega

theorem hwspin_lock_test_ideal_lock_calls_witness :
    (hwspin_lock_test ideal_lock 5 () LockState.FREE).calls = repetitions five_steps 5 ∧
    (((5 : Int).toNat : Nat) : Int) = 5 ∧
    ((trylock_calls (hwspin_lock_test ideal_lock 5 () LockState.FREE).calls : Nat) : Int)
      = 3 * 5 ∧
    ((unlock_calls (hwspin_lock_test ideal_lock 5 () LockState.FREE).calls : Nat) : Int)
      = 2 * 5 :=
  hwspin_lock_test_ideal_lock_calls 5 (by decide)

section VerdictLemmas

variable {σ H : Type}

theorem hwspin_lock_test_loop_verdict (api : Backend σ H) (hwlock : H) :
    ∀ (n : Nat) (s : σ),
      (hwspin_lock_test_loop api hwlock n s).ret = 0
        ↔ answers_pass n (trylock_answers (hwspin_lock_test_loop api hwlock n s).calls)
            = true := by
  intro n
  induction n with
  | zero => intro s; simp [hwspin_lock_test_loop, trylock_answers, answers_pass]
  | succ n ih =>
    intro s
    simp only [hwspin_lock_test_loop]
    split_ifs with h1 h2 h3
    · simp [trylock_answers, answers_pass, EFAULT]
    · simp [trylock_answers, answers_pass, EFAULT]
    · simp [trylock_answers, answers_pass, EINVAL, h3]
    · simp only [ne_eq, not_not] at h1 h3
      simp [trylock_answers, answers_pass, h1, h2, h3, ih]

theorem hwspin_lock_test_loop_balance (api : Backend σ H) (hwlock : H) :
    ∀ (n : Nat) (s : σ),
      unlock_calls (hwspin_lock_test_loop api hwlock n s).calls
        = successful_trylocks (hwspin_lock_test_loop api hwlock n s).calls := by
  intro n
  induction n with
  | zero => intro s; simp [hwspin_lock_test_loop, unlock_calls, successful_trylocks]
  | succ n ih =>
    intro s
    simp only [hwspin_lock_test_loop]
    split_ifs with h1 h2 h3
    · simp [unlock_calls, successful_trylocks, h1]
    · simp only [ne_eq, not_not] at h1
      simp [unlock_calls, successful_trylocks, h1, h2]
    · simp only [ne_eq, not_not] at h1
      simp [unlock_calls, successful_trylocks, h1, h2, h3]
    · simp only [ne_eq, not_not] at h1 h3
      simp [unlock_calls, successful_trylocks, h1, h2, h3, ih]

end VerdictLemmas

/-- Claim C16: for every backend, lock, state and iteration count,
`hwspin_lock_test` returns 0 if and only if the trylock answers it observed
are those of `count` iterations in each of which the three trylock calls
answered (success, failure, success) in that order; any other observed answer
pattern yields a nonzero result. -/
theorem hwspin_lock_test_verdict {σ H : Type} (api : Backend σ H) (hwlock : H)
    (count : Int) (s : σ) :
    ((hwspin_lock_test api count hwlock s).ret = 0
      ↔ answers_pass count.toNat
          (trylock_answers (hwspin_lock_test api count hwlock s).calls) = true) ∧
    (answers_pass count.toNat
        (trylock_answers (hwspin_lock_test api count hwlock s).calls) = false →
      (hwspin_lock_test api count hwlock s).ret ≠ 0) := by
  have h := hwspin_lock_test_loop_verdict api hwlock count.toNat s
  refine ⟨h, ?_⟩
  intro hf hret
  rw [hwspin_lock_test, h.mp hret] at hf
  exact absurd hf (by decide)

theorem hwspin_lock_test_verdict_witness :
    (hwspin_lock_test scripted 2 () [0, -16, 0, 0, 0]).ret ≠ 0 :=
  (hwspin_lock_test_verdict scripted () 2 [0, -16, 0, 0, 0]).2 (by decide)

/-- Claim C17: for every backend, lock, state and iteration count, the number of
unlock calls `hwspin_lock_test` issued equals the number of its trylock calls
that reported success, whichever way it returned. -/
theorem hwspin_lock_test_balance {σ H : Type} (api : Backend σ H) (hwlock : H)
    (count : Int) (s : σ) :
    unlock_calls (hwspin_lock_test api count hwlock s).calls
      = successful_trylocks (hwspin_lock_test api count hwlock s).calls :=
  hwspin_lock_test_loop_balance api hwlock count.toNat s

/-- Claim C18: when the iteration count is zero or negative, `hwspin_lock_test`
makes no call at all, leaves the state as it is and returns 0, for every lock
and every backend, a broken one included. -/
theorem hwspin_lock_test_no_iteration {σ H : Type} (api : Backend σ H) (hwlock : H)
    (count : Int) (s : σ) (hcount : count ≤ 0) :
    (hwspin_lock_test api count hwlock s).ret = 0 ∧
    (hwspin_lock_test api count hwlock s).calls = [] ∧
    trylock_calls (hwspin_lock_test api count hwlock s).calls = 0 ∧
    unlock_calls (hwspin_lock_test api count hwlock s).calls = 0 ∧
    (hwspin_lock_test api count hwlock s).state = s := by
  have h0 : count.toNat = 0 := Int.toNat_eq_zero.mpr hcount
  unfold hwspin_lock_test
  rw [h0]
  exact ⟨rfl, rfl, rfl, rfl, rfl⟩

theorem hwspin_lock_test_no_iteration_witness :
    ((hwspin_lock_test always_granting (-3) () ()).ret = 0 ∧
     (hwspin_lock_test always_granting (-3) () ()).calls = []) ∧
    (hwspin_lock_test always_granting 1 () ()).ret = -EFAULT :=
  ⟨⟨(hwspin_lock_test_no_iteration always_granting () (-3) () (by decide)).1,
    (hwspin_lock_test_no_iteration always_granting () (-3) () (by decide)).2.1⟩,
   by decide⟩

/-! ## `of_hwspin_lock_get_num_locks` is never zero -/

/-- Claim C19: `of_hwspin_lock_get_num_locks` never returns 0: whatever the read
of "hwlock-num-locks" reports, a nonzero error code or success with any
unsigned 32-bit value (0 included), the result is nonzero. -/
theorem get_num_locks_ne_zero {DN : Type} (of_property_read_u32 : DN → String → of_read)
    (dn : DN) (hval : (of_property_read_u32 dn "hwlock-num-locks").val ≤ U32_MAX) :
    of_hwspin_lock_get_num_locks of_property_read_u32 dn ≠ 0 := by
  unfold U32_MAX at hval
  unfold of_hwspin_lock_get_num_locks
  simp only
  split_ifs with hret hnz
  · unfold u32_to_int
    split_ifs <;> omega
  · decide
  · exact hret

theorem get_num_locks_ne_zero_witness :
    of_hwspin_lock_get_num_locks (node_with "hwlock-num-locks" 4294967295 (-EINVAL)) () ≠ 0 ∧
    of_hwspin_lock_get_num_locks (node_with "hwlock-num-locks" 0 (-EINVAL)) () ≠ 0 ∧
    of_hwspin_lock_get_num_locks (node_failing (-EINVAL)) () ≠ 0 :=
  ⟨get_num_locks_ne_zero (node_with "hwlock-num-locks" 4294967295 (-EINVAL)) () (by decide),
   get_num_locks_ne_zero (node_with "hwlock-num-locks" 0 (-EINVAL)) () (by decide),
   get_num_locks_ne_zero (node_failing (-EINVAL)) () (by decide)⟩

end Hwspinlock
